import Mathlib

/-!
Shallow embedding of the Afrocreatives smart-contract core
(packages/smart-contracts/src) for verification of its specification.

Modelling conventions:
* `U256` values are modelled as unbounded `Nat`; arithmetic on ETH amounts
  cannot overflow 2^256 in practice, and the only computation where a wrap
  is reachable for arbitrary inputs (the mock NFT token id
  `project_id * 10000 + funding_amount`) carries an explicit `% 2 ^ 256`.
  `U256` subtraction appears only where the source guarantees no underflow
  or where the claim under scrutiny supplies that bound; Nat subtraction
  (truncated) is used, mirroring the saturating `u64::saturating_sub`
  exactly where the source uses it.
* Addresses are modelled as `Nat` (`0` plays the role of `Address::ZERO`).
* Storage maps become total functions with the same zero/default semantics
  as Stylus storage; vectors become lists.
* Errors: the `AfroCreateError` enum from types/errors.rs is embedded by
  constructor kind; the human-readable message strings are dropped, since
  no property depends on them.  A failed external `transfer_eth` surfaces
  as `transferFailed` (the SDK revert-bytes conversion), which is a
  distinct constructor from `insufficientFunds` (only ever produced by
  `require_sufficient_funds`).
* `call::transfer_eth` is modelled against the contract's ETH `balance`,
  and every performed transfer is recorded in a `transfers` trace together
  with the value of the reentrancy flag `locked` at the moment of the
  transfer, so that guard discipline is observable.
* Returning an error from an entrypoint reverts all storage writes; the
  `Except` embedding reflects this because an `error` result carries no
  state.
-/

namespace AfroCreate

/-- Error kinds of `AfroCreateError` (types/errors.rs), messages elided. -/
inductive AfroErr where
  | unauthorized
  | invalidInput
  | insufficientFunds
  | transferFailed
  deriving Repr, DecidableEq

/-- Model of `require_valid_input` from types/errors.rs. -/
def requireValidInput (c : Prop) [Decidable c] : Except AfroErr Unit :=
  if c then .ok () else .error .invalidInput

/-- Model of `require_authorized` from types/errors.rs. -/
def requireAuthorized (c : Prop) [Decidable c] : Except AfroErr Unit :=
  if c then .ok () else .error .unauthorized

/-- Model of `require_sufficient_funds` from types/errors.rs. -/
def requireSufficientFunds (c : Prop) [Decidable c] : Except AfroErr Unit :=
  if c then .ok () else .error .insufficientFunds

/-- Pointwise map update, the meaning of `StorageMap::insert`. -/
def upd {α : Type} (f : Nat → α) (k : Nat) (v : α) : Nat → α :=
  fun x => if x = k then v else f x

/-- Update of a two-level map (`StorageMap` of `StorageMap`). -/
def upd2 {α : Type} (f : Nat → Nat → α) (k₁ k₂ : Nat) (v : α) : Nat → Nat → α :=
  fun x => if x = k₁ then upd (f x) k₂ v else f x

/-- Model of `FundingModel` from types/mod.rs. -/
inductive FundingModel where
  | allOrNothing
  | flexibleFunding
  | milestoneBased
  deriving Repr, DecidableEq

/-- Model of `FundingInfo` from types/mod.rs (sol! struct). -/
structure FundingInfo where
  target : Nat
  raised : Nat
  deadline : Nat
  status : Nat        -- 0 Active, 1 Successful, 2 Failed, 3 Cancelled
  creator : Nat
  backerCount : Nat
  fundingModel : Nat
  deriving Repr, DecidableEq

/-- Zero-initialised `FundingInfo`, the value of an absent storage slot. -/
def FundingInfo.zero : FundingInfo :=
  { target := 0, raised := 0, deadline := 0, status := 0
  , creator := 0, backerCount := 0, fundingModel := 0 }

/-- Model of `Milestone` from types/mod.rs; the metadata strings (title,
description) are dropped as no computation reads them. -/
structure Milestone where
  id : Nat
  fundingAmount : Nat
  deadline : Nat
  isCompleted : Bool
  fundsReleased : Bool
  deriving Repr, DecidableEq

/-- Storage of the `ProjectFunding` contract
(projects/project_funding.rs), plus the modelled ETH balance and the
transfer trace described in the header. -/
structure PFState where
  projectFunding : Nat → FundingInfo
  backerContributions : Nat → Nat → Nat
  projectBackers : Nat → List Nat
  revenueNftContract : Nat
  fundingModels : Nat → Nat
  projectMilestones : Nat → List Milestone
  milestoneReleases : Nat → Nat → Bool
  milestoneCompletion : Nat → Nat → Bool
  platformContract : Nat
  platformFeeBps : Nat
  minContribution : Nat
  refundPeriod : Nat
  projectEscrow : Nat → Nat
  platformTreasury : Nat
  owner : Nat
  authorizedCallers : Nat → Bool
  totalProjectsFunded : Nat
  totalAmountRaised : Nat
  totalBackers : Nat
  locked : Bool
  balance : Nat
  transfers : List (Nat × Nat × Bool)

/-- Model of `call::transfer_eth`: succeeds exactly when the contract holds the
amount; the trace records recipient, amount and the guard flag at the
moment of transfer. -/
def transferEth (s : PFState) (toAddr amount : Nat) : Except AfroErr PFState :=
  if amount ≤ s.balance then
    .ok { s with balance := s.balance - amount
               , transfers := s.transfers ++ [(toAddr, amount, s.locked)] }
  else .error .transferFailed

/-- Model of `ProjectFunding::nonreentrant_guard`. -/
def nonreentrantGuard (s : PFState) : Except AfroErr PFState :=
  if s.locked then .error .invalidInput else .ok { s with locked := true }

/-- Model of `ProjectFunding::unlock_guard`. -/
def unlockGuard (s : PFState) : PFState := { s with locked := false }

/-- Model of `ProjectFunding::require_owner`. -/
def pfRequireOwner (s : PFState) (caller : Nat) : Except AfroErr Unit :=
  if caller = s.owner then .ok () else .error .unauthorized

/-- Model of `ProjectFunding::require_authorized_caller`. -/
def pfRequireAuthorizedCaller (s : PFState) (caller : Nat) : Except AfroErr Unit :=
  if caller = s.platformContract ∨ caller = s.owner ∨ s.authorizedCallers caller then
    .ok ()
  else .error .unauthorized

/-- Model of `ProjectFunding::get_funding_model`. -/
def getFundingModel (s : PFState) (projectId : Nat) : FundingModel :=
  match s.fundingModels projectId with
  | 0 => .allOrNothing
  | 1 => .flexibleFunding
  | 2 => .milestoneBased
  | _ => .allOrNothing

/-- Model of `ProjectFunding::transfer_to_creator`. -/
def transferToCreator (s : PFState) (creator amount : Nat) : Except AfroErr PFState :=
  if 0 < amount then transferEth s creator amount else .ok s

/-- Model of `ProjectFunding::calculate_revenue_share`. -/
def calculateRevenueShare (s : PFState) (projectId contribution : Nat) :
    Except AfroErr Nat :=
  let fi := s.projectFunding projectId
  if 0 < fi.target then
    if fi.raised = 0 then .ok 0
    else .ok (contribution * 10000 / fi.raised)
  else .error .invalidInput

/-- Model of `ProjectFunding::mint_revenue_nft`: takes `&self`, writes no claim or
ownership state, and returns the mock token id
`project_id * 10000 + funding_amount` (a `U256` product, hence mod 2^256). -/
def mintRevenueNft (s : PFState) (projectId fundingAmount : Nat) :
    Except AfroErr Nat :=
  (calculateRevenueShare s projectId fundingAmount).map
    (fun _shareBps => (projectId * 10000 + fundingAmount) % 2 ^ 256)

/-- Model of `ProjectFunding::initialize` (the ens/nft addresses are stored, the
rest sets the defaults literally present in the source). -/
def initFunding (s : PFState) (caller platformContract nftContract feeBps : Nat) :
    Except AfroErr PFState :=
  if s.owner = 0 then
    .ok { s with owner := caller
               , platformContract := platformContract
               , revenueNftContract := nftContract
               , platformFeeBps := feeBps
               , minContribution := 1000000000000000
               , refundPeriod := 30 * 24 * 3600 }
  else .error .invalidInput

/-- The `msg::value()` credit a payable call receives before its body
runs. -/
def creditValue (s : PFState) (value : Nat) : PFState :=
  { s with balance := s.balance + value }

/-- The updated `FundingInfo` written by a successful `fund_project`
(lines 101-126): raised grows by the contribution, the backer count
grows on a first contribution, and status flips to 1 (Successful) iff
the new raised amount reaches the target. -/
def fundUpdatedInfo (s : PFState) (caller projectId value : Nat) : FundingInfo :=
  let fundingInfo := s.projectFunding projectId
  let updated1 := { fundingInfo with raised := fundingInfo.raised + value }
  let firstTime := s.backerContributions projectId caller = 0
  let updated2 :=
    if firstTime then { updated1 with backerCount := updated1.backerCount + 1 }
    else updated1
  if updated2.target ≤ updated2.raised then { updated2 with status := 1 } else updated2

/-- The storage writes of a successful `fund_project` call
(lines 101-127), applied to the post-guard state. -/
def fundWrites (s : PFState) (caller projectId value : Nat) : PFState :=
  let previousContribution := s.backerContributions projectId caller
  let firstTime := previousContribution = 0
  let updated3 := fundUpdatedInfo s caller projectId value
  let newContribs := upd2 s.backerContributions projectId caller
    (previousContribution + value)
  let pushBacker := fun (q : Nat) =>
    if q = projectId then s.projectBackers q ++ [caller] else s.projectBackers q
  let newEscrow := upd s.projectEscrow projectId (s.projectEscrow projectId + value)
  { s with backerContributions := newContribs
         , projectBackers := if firstTime then pushBacker else s.projectBackers
         , projectEscrow := newEscrow
         , totalProjectsFunded :=
             if updated3.target ≤ updated3.raised then s.totalProjectsFunded + 1
             else s.totalProjectsFunded
         , projectFunding := upd s.projectFunding projectId updated3
         , totalAmountRaised := s.totalAmountRaised + value }

/-- Model of `ProjectFunding::fund_project`.  `caller` is `msg::sender()`,
`value` is `msg::value()` (credited to the contract balance on entry, as
for any payable call), `now` is `block::timestamp()`.  The ENS-name
string argument is dropped (only logged).  Returns the minted token id.
The source reads the funding model between the escrow write and the
target check and never uses it; every guard reads only the entry state,
so checks and writes are mirrored as a guard chain followed by
`fundWrites`. -/
def fundProject (s0 : PFState) (caller projectId value now : Nat) :
    Except AfroErr (PFState × Nat) :=
  match nonreentrantGuard (creditValue s0 value) with
  | .error e => .error e
  | .ok s =>
    if s.minContribution ≤ value then
      if 0 < (s.projectFunding projectId).target then
        if (s.projectFunding projectId).status = 0 then
          if now ≤ (s.projectFunding projectId).deadline then
            let s1 := fundWrites s caller projectId value
            match mintRevenueNft s1 projectId value with
            | .error e => .error e
            | .ok nftTokenId =>
              -- update_platform_funding is a no-op in the source
              .ok (unlockGuard s1, nftTokenId)
          else .error .invalidInput
        else .error .invalidInput
      else .error .invalidInput
    else .error .insufficientFunds

/-- The storage writes of `setup_project_funding` (lines 162-181): the
fresh `FundingInfo` (status Active, nothing raised; the `u8` cast of the
model), the model map entry, and — for milestone-based projects — the
milestone vector. -/
def setupWrites (s : PFState) (projectId target deadline creator fundingModel : Nat)
    (milestones : List Milestone) : PFState :=
  let fundingInfo : FundingInfo :=
    { target := target, raised := 0, deadline := deadline, status := 0
    , creator := creator, backerCount := 0, fundingModel := fundingModel % 256 }
  let pushMilestones := fun (q : Nat) =>
    if q = projectId then s.projectMilestones q ++ milestones
    else s.projectMilestones q
  { s with projectFunding := upd s.projectFunding projectId fundingInfo
         , fundingModels := upd s.fundingModels projectId fundingModel
         , projectMilestones :=
             if fundingModel = 2 then pushMilestones else s.projectMilestones }

/-- Model of `ProjectFunding::setup_project_funding`. -/
def setupProjectFunding (s : PFState) (caller projectId target deadline creator
    fundingModel : Nat) (milestones : List Milestone) : Except AfroErr PFState :=
  match pfRequireAuthorizedCaller s caller with
  | .error e => .error e
  | .ok _ =>
    if (s.projectFunding projectId).target = 0 then
      .ok (setupWrites s projectId target deadline creator fundingModel milestones)
    else .error .invalidInput

/-- Model of `ProjectFunding::release_milestone_funds`. -/
def releaseMilestoneFunds (s : PFState) (caller projectId milestoneId : Nat) :
    Except AfroErr PFState :=
  match pfRequireAuthorizedCaller s caller with
  | .error e => .error e
  | .ok _ =>
    let fundingInfo := s.projectFunding projectId
    if 0 < fundingInfo.target then
      if getFundingModel s projectId = FundingModel.milestoneBased then
        if s.milestoneCompletion projectId milestoneId then
          if s.milestoneReleases projectId milestoneId then .error .invalidInput
          else
            let milestones := s.projectMilestones projectId
            if milestoneId < milestones.length then
              match milestones.get? milestoneId with
              | some milestone =>
                match transferToCreator s fundingInfo.creator milestone.fundingAmount with
                | .error e => .error e
                | .ok s1 =>
                  let newReleases := upd2 s1.milestoneReleases projectId milestoneId true
                  .ok { s1 with milestoneReleases := newReleases }
              | none => .ok s
            else .error .invalidInput
        else .error .invalidInput
      else .error .invalidInput
    else .error .invalidInput

/-- The proportional refund of lines 268-272:
`contribution * escrow / raised`, or the raw contribution when
`raised = 0`. -/
def refundAmountOf (contribution escrowAmount totalRaised : Nat) : Nat :=
  if 0 < totalRaised then contribution * escrowAmount / totalRaised
  else contribution

/-- Lines 275-277: transfer only when the amount is positive. -/
def optionalTransfer (s : PFState) (toAddr amount : Nat) : Except AfroErr PFState :=
  if 0 < amount then transferEth s toAddr amount else .ok s

/-- Zeroing a backer's contribution (line 280). -/
def clearContribution (s : PFState) (projectId backer : Nat) : PFState :=
  { s with backerContributions := upd2 s.backerContributions projectId backer 0 }

/-- The backer loop of `ProjectFunding::process_refunds`: for each backer
with a positive contribution, transfer the proportional refund and zero
the contribution. -/
def processRefundsLoop (projectId escrowAmount totalRaised : Nat) :
    List Nat → PFState → Except AfroErr PFState
  | [], s => .ok s
  | backer :: rest, s =>
    let contribution := s.backerContributions projectId backer
    if 0 < contribution then
      match optionalTransfer s backer
          (refundAmountOf contribution escrowAmount totalRaised) with
      | .error e => .error e
      | .ok s1 =>
        processRefundsLoop projectId escrowAmount totalRaised rest
          (clearContribution s1 projectId backer)
    else processRefundsLoop projectId escrowAmount totalRaised rest s

/-- Refund eligibility, lines 241-250 of process_refunds. -/
def refundEligible (model : FundingModel) (fi : FundingInfo) (now : Nat) : Prop :=
  match model with
  | .allOrNothing => fi.status = 2 ∨ (fi.deadline < now ∧ fi.raised < fi.target)
  | .milestoneBased => fi.status = 3
  | _ => False

instance (model : FundingModel) (fi : FundingInfo) (now : Nat) :
    Decidable (refundEligible model fi now) := by
  unfold refundEligible; cases model <;> infer_instance

/-- The closing writes of `process_refunds` (lines 285-293): clear the
escrow, set the record's status to 2 (Failed/Refunded), release the
guard. -/
def refundsFinish (s1 : PFState) (projectId : Nat) (fundingInfo : FundingInfo) :
    PFState :=
  let s2 := { s1 with projectEscrow := upd s1.projectEscrow projectId 0 }
  let s3 := { s2 with projectFunding :=
                       upd s2.projectFunding projectId { fundingInfo with status := 2 } }
  unlockGuard s3

/-- Model of `ProjectFunding::process_refunds`. -/
def processRefunds (s0 : PFState) (projectId now : Nat) : Except AfroErr PFState :=
  match nonreentrantGuard s0 with
  | .error e => .error e
  | .ok s =>
    let fundingInfo := s.projectFunding projectId
    if 0 < fundingInfo.target then
      let fundingModel := getFundingModel s projectId
      if refundEligible fundingModel fundingInfo now then
        if now ≤ fundingInfo.deadline + s.refundPeriod then
          let backers := s.projectBackers projectId
          let escrowAmount := s.projectEscrow projectId
          let totalRaised := fundingInfo.raised
          match processRefundsLoop projectId escrowAmount totalRaised backers s with
          | .error e => .error e
          | .ok s1 => .ok (refundsFinish s1 projectId fundingInfo)
        else .error .invalidInput
      else .error .invalidInput
    else .error .invalidInput

/-- Model of `ProjectFunding::finalize_successful_project`. -/
def finalizeSuccessfulProject (s : PFState) (caller projectId : Nat) :
    Except AfroErr PFState :=
  match pfRequireAuthorizedCaller s caller with
  | .error e => .error e
  | .ok _ =>
    let fundingInfo := s.projectFunding projectId
    if 0 < fundingInfo.target then
      if fundingInfo.status = 1 then
        let fundingModel := getFundingModel s projectId
        let escrowAmount := s.projectEscrow projectId
        match fundingModel with
        | .milestoneBased => .ok s
        | _ =>
          let platformFee := escrowAmount * s.platformFeeBps / 10000
          let creatorAmount := escrowAmount - platformFee
          match transferToCreator s fundingInfo.creator creatorAmount with
          | .error e => .error e
          | .ok s1 =>
            .ok { s1 with platformTreasury := s1.platformTreasury + platformFee
                        , projectEscrow := upd s1.projectEscrow projectId 0 }
      else .error .invalidInput
    else .error .invalidInput

/-- Model of `ProjectFunding::add_authorized_caller`. -/
def addAuthorizedCaller (s : PFState) (caller newCaller : Nat) :
    Except AfroErr PFState :=
  match pfRequireOwner s caller with
  | .error e => .error e
  | .ok _ =>
    let newAuth := fun (a : Nat) =>
      if a = newCaller then true else s.authorizedCallers a
    .ok { s with authorizedCallers := newAuth }

/-- Model of `ProjectFunding::set_platform_fee`.  Note: in the source the
`require_valid_input(new_fee_bps <= 1000, ...)` result is built and then
discarded (the `?` is missing), so the bound is never enforced; the
embedding reproduces that. -/
def setPlatformFee (s : PFState) (caller newFeeBps : Nat) : Except AfroErr PFState :=
  match pfRequireOwner s caller with
  | .error e => .error e
  | .ok _ =>
    let _unused := requireValidInput (newFeeBps ≤ 1000)
    .ok { s with platformFeeBps := newFeeBps }

/-- Model of `ProjectFunding::emergency_withdraw`. -/
def emergencyWithdraw (s : PFState) (caller projectId : Nat) :
    Except AfroErr PFState :=
  match pfRequireOwner s caller with
  | .error e => .error e
  | .ok _ =>
    let escrowAmount := s.projectEscrow projectId
    if 0 < escrowAmount then
      match transferEth s s.owner escrowAmount with
      | .error e => .error e
      | .ok s1 => .ok { s1 with projectEscrow := upd s1.projectEscrow projectId 0 }
    else .ok s

/-- One state transition of the `ProjectFunding` contract: any public
state-mutating entrypoint, invoked with arbitrary arguments, that
returns `Ok` (an `Err` reverts every write, leaving the state as it
was). -/
inductive PFStep : PFState → PFState → Prop where
  | init : ∀ s caller pc nft feeBps s',
      initFunding s caller pc nft feeBps = .ok s' → PFStep s s'
  | fund : ∀ s caller projectId value now s' tok,
      fundProject s caller projectId value now = .ok (s', tok) → PFStep s s'
  | setup : ∀ s caller projectId target deadline creator model milestones s',
      setupProjectFunding s caller projectId target deadline creator model milestones
        = .ok s' → PFStep s s'
  | release : ∀ s caller projectId milestoneId s',
      releaseMilestoneFunds s caller projectId milestoneId = .ok s' → PFStep s s'
  | refunds : ∀ s projectId now s',
      processRefunds s projectId now = .ok s' → PFStep s s'
  | finalize : ∀ s caller projectId s',
      finalizeSuccessfulProject s caller projectId = .ok s' → PFStep s s'
  | addAuth : ∀ s caller newCaller s',
      addAuthorizedCaller s caller newCaller = .ok s' → PFStep s s'
  | setFee : ∀ s caller newFeeBps s',
      setPlatformFee s caller newFeeBps = .ok s' → PFStep s s'
  | emergency : ∀ s caller projectId s',
      emergencyWithdraw s caller projectId = .ok s' → PFStep s s'

/-! ## RevenueDistributor (revenue/revenue_distributor.rs) -/

/-- Pointwise update of a `String`-keyed storage map. -/
def updS {α : Type} (f : String → α) (k : String) (v : α) : String → α :=
  fun x => if x = k then v else f x

/-- Update of a `U256 → String → _` two-level storage map. -/
def updNS {α : Type} (f : Nat → String → α) (k₁ : Nat) (k₂ : String) (v : α) :
    Nat → String → α :=
  fun x => if x = k₁ then updS (f x) k₂ v else f x

/-- Model of `RevenueInfo` from types/mod.rs. -/
structure RevenueInfo where
  totalRevenue : Nat
  lastDistributionTimestamp : Nat
  revenueSources : List String
  oracleVerified : Bool
  creatorShareBps : Nat
  communityShareBps : Nat
  deriving Repr, DecidableEq

/-- Zero-initialised `RevenueInfo`. -/
def RevenueInfo.zero : RevenueInfo :=
  { totalRevenue := 0, lastDistributionTimestamp := 0, revenueSources := []
  , oracleVerified := false, creatorShareBps := 0, communityShareBps := 0 }

/-- Model of `RevenueSource` from revenue/revenue_distributor.rs. -/
structure RevenueSource where
  sourceName : String
  oracleAddress : Nat
  isActive : Bool
  verificationRequired : Bool
  lastUpdateTimestamp : Nat
  totalRevenueReported : Nat
  deriving Repr, DecidableEq

/-- Model of `DistributionEvent` from types/mod.rs. -/
structure DistributionEvent where
  timestamp : Nat
  amount : Nat
  recipientsCount : Nat
  source : String
  deriving Repr, DecidableEq

/-- Events emitted by the distributor (`evm::log`), the audit trail the
spec designates as the sole history. -/
inductive RDEvent where
  | revenueAdded (projectId : Nat) (source : String) (amount timestamp : Nat)
  | revenueDistributed (projectId totalAmount creatorShare communityShare platformFee : Nat)
  deriving Repr, DecidableEq

/-- Storage of the `RevenueDistributor` contract plus the modelled
balance, transfer trace and event log.  The Superfluid streaming fields
and dispute bookkeeping are carried where the modelled entrypoints touch
them; entrypoints that only concern streaming are not modelled. -/
structure RDState where
  projectRevenue : Nat → RevenueInfo
  projectRevenueSources : Nat → String → Nat
  revenueSources : String → RevenueSource
  oracleAddresses : String → Nat
  supportedSources : List String
  totalDistributed : Nat → Nat
  distributionHistory : Nat → List DistributionEvent
  creatorClaimedRevenue : Nat → Nat → Nat
  platformContract : Nat
  nftContract : Nat
  platformFeeBps : Nat
  minDistributionAmount : Nat
  distributionFrequency : Nat
  creatorShareDefault : Nat
  owner : Nat
  authorizedReporters : Nat → Bool
  revenueManagers : Nat → Bool
  totalRevenueProcessed : Nat
  paused : Bool
  locked : Bool
  balance : Nat
  transfers : List (Nat × Nat × Bool)
  events : List RDEvent

/-- Model of `RevenueDistributor::nonreentrant_guard`. -/
def rdGuard (s : RDState) : Except AfroErr RDState :=
  if s.locked then .error .invalidInput else .ok { s with locked := true }

/-- Model of `RevenueDistributor::unlock_guard`. -/
def rdUnlock (s : RDState) : RDState := { s with locked := false }

/-- Model of `RevenueDistributor::require_authorized_reporter`. -/
def rdRequireReporter (s : RDState) (caller : Nat) : Except AfroErr Unit :=
  if s.authorizedReporters caller ∨ caller = s.owner then .ok ()
  else .error .unauthorized

/-- Model of `RevenueDistributor::is_supported_source`. -/
def isSupportedSource (s : RDState) (source : String) : Bool :=
  s.supportedSources.contains source

/-- Model of `RevenueDistributor::validate_revenue_with_oracle` — the source's
"simplified validation": it requires a configured oracle address and
accepts any positive amount at most twice the source's historical
`total_revenue_reported`; no oracle-manager consensus data is read (the
distributor state holds none). -/
def validateRevenueWithOracle (s : RDState) (_projectId : Nat) (source : String)
    (amount : Nat) : Except AfroErr Bool :=
  if s.oracleAddresses source = 0 then .error .invalidInput
  else
    let sourceConfig := s.revenueSources source
    .ok (decide (amount ≤ sourceConfig.totalRevenueReported * 2) && decide (0 < amount))

/-- The storage writes of an accepted `add_revenue_source` report
(lines 156-192): initialise the project's `RevenueInfo` on first
revenue, add the amount to the running total and the per-source
breakdown, register the source name, bump the global counter, emit the
event. -/
def addRevenueWrites (s : RDState) (projectId : Nat) (source : String)
    (amount now : Nat) : RDState :=
  let sourceConfig := s.revenueSources source
  let revenueInfo0 := s.projectRevenue projectId
  let revenueInfo1 :=
    if revenueInfo0.totalRevenue = 0 then
      { totalRevenue := 0
      , lastDistributionTimestamp := 0
      , revenueSources := [source]
      , oracleVerified := sourceConfig.verificationRequired
      , creatorShareBps := s.creatorShareDefault
      , communityShareBps := 10000 - s.creatorShareDefault - s.platformFeeBps }
    else revenueInfo0
  let revenueInfo2 :=
    { revenueInfo1 with totalRevenue := revenueInfo1.totalRevenue + amount }
  let currentSourceAmount := s.projectRevenueSources projectId source
  let newBySource := updNS s.projectRevenueSources projectId source
    (currentSourceAmount + amount)
  let revenueInfo3 :=
    if revenueInfo2.revenueSources.contains source then revenueInfo2
    else { revenueInfo2 with revenueSources := revenueInfo2.revenueSources ++ [source] }
  { s with projectRevenueSources := newBySource
         , projectRevenue := upd s.projectRevenue projectId revenueInfo3
         , totalRevenueProcessed := s.totalRevenueProcessed + amount
         , events := s.events ++ [.revenueAdded projectId source amount now] }

/-- Model of `RevenueDistributor::add_revenue_source` (the revenue-report
entrypoint; the `proof_uri` string is dropped, it is never read). -/
def addRevenueSource (s : RDState) (caller projectId : Nat) (source : String)
    (amount now : Nat) : Except AfroErr (RDState × Bool) :=
  if s.paused then .error .invalidInput
  else match rdRequireReporter s caller with
  | .error e => .error e
  | .ok _ =>
    if 0 < amount then
      if isSupportedSource s source then
        let sourceConfig := s.revenueSources source
        if sourceConfig.isActive then
          let verification : Except AfroErr Unit :=
            if sourceConfig.verificationRequired then
              match validateRevenueWithOracle s projectId source amount with
              | .error e => .error e
              | .ok verified => if verified then .ok () else .error .invalidInput
            else .ok ()
          match verification with
          | .error e => .error e
          | .ok _ => .ok (addRevenueWrites s projectId source amount now, true)
        else .error .invalidInput
      else .error .invalidInput
    else .error .invalidInput

/-- The literal string key used in the distributor's history events. -/
def batchDistributionTag : String := "batch_distribution"

/-- Model of `RevenueDistributor::get_nft_holder_count` (source placeholder). -/
def getNftHolderCount (_s : RDState) (_projectId : Nat) : Nat := 10

/-- The split of lines 236-238: platform fee and creator share by basis
points, community share as the remainder. -/
def distributionBreakdown (available feeBps creatorBps : Nat) : Nat × Nat × Nat :=
  let platformFee := available * feeBps / 10000
  let creatorShare := available * creatorBps / 10000
  let communityShare := available - platformFee - creatorShare
  (platformFee, creatorShare, communityShare)

/-- The storage writes of a successful `distribute_revenue`
(lines 236-268): compute the breakdown, bump `total_distributed`, append
the history entry, stamp the revenue info, emit the event, release the
guard.  `distribute_to_nft_holders` is `Ok(())` in the source. -/
def distributeWrites (s : RDState) (projectId now availableForDistribution : Nat) :
    RDState :=
  let revenueInfo := s.projectRevenue projectId
  let breakdown := distributionBreakdown availableForDistribution
    s.platformFeeBps revenueInfo.creatorShareBps
  let totalDistributed := s.totalDistributed projectId
  let event : DistributionEvent :=
    { timestamp := now, amount := availableForDistribution
    , recipientsCount := getNftHolderCount s projectId
    , source := batchDistributionTag }
  let newHistory := fun (q : Nat) =>
    if q = projectId then s.distributionHistory q ++ [event]
    else s.distributionHistory q
  let updatedRevenueInfo := { revenueInfo with lastDistributionTimestamp := now }
  rdUnlock { s with totalDistributed :=
                    upd s.totalDistributed projectId
                      (totalDistributed + availableForDistribution)
                  , distributionHistory := newHistory
                  , projectRevenue := upd s.projectRevenue projectId updatedRevenueInfo
                  , events := s.events ++
                      [.revenueDistributed projectId availableForDistribution
                        breakdown.2.1 breakdown.2.2 breakdown.1] }

/-- Model of `RevenueDistributor::distribute_revenue`.  Computes the
platform/creator/community split of the undistributed amount; the
community transfer itself (`distribute_to_nft_holders`) is a no-op in the
source.  Returns the amount distributed. -/
def distributeRevenue (s0 : RDState) (projectId now : Nat) :
    Except AfroErr (RDState × Nat) :=
  match rdGuard s0 with
  | .error e => .error e
  | .ok s =>
    if s.paused then .error .invalidInput
    else
      let revenueInfo := s.projectRevenue projectId
      if 0 < revenueInfo.totalRevenue then
        let totalDistributed := s.totalDistributed projectId
        let availableForDistribution := revenueInfo.totalRevenue - totalDistributed
        if s.minDistributionAmount ≤ availableForDistribution then
          if revenueInfo.lastDistributionTimestamp + s.distributionFrequency ≤ now then
            .ok (distributeWrites s projectId now availableForDistribution,
                 availableForDistribution)
          else .error .invalidInput
        else .error .invalidInput
      else .error .invalidInput

/-- Model of `call::transfer_eth` for the distributor. -/
def rdTransferEth (s : RDState) (toAddr amount : Nat) : Except AfroErr RDState :=
  if amount ≤ s.balance then
    .ok { s with balance := s.balance - amount
               , transfers := s.transfers ++ [(toAddr, amount, s.locked)] }
  else .error .transferFailed

/-- Model of `RevenueDistributor::claim_creator_revenue`. -/
def claimCreatorRevenue (s0 : RDState) (caller projectId : Nat) :
    Except AfroErr (RDState × Nat) :=
  match rdGuard s0 with
  | .error e => .error e
  | .ok s =>
    let creator := caller
    let revenueInfo := s.projectRevenue projectId
    if 0 < revenueInfo.totalRevenue then
      let totalDistributed := s.totalDistributed projectId
      let availableRevenue := revenueInfo.totalRevenue - totalDistributed
      let creatorShare := availableRevenue * revenueInfo.creatorShareBps / 10000
      let alreadyClaimed := s.creatorClaimedRevenue projectId creator
      let claimable := creatorShare - alreadyClaimed
      if 0 < claimable then
        match rdTransferEth s creator claimable with
        | .error e => .error e
        | .ok s1 =>
          let newClaimed := upd2 s1.creatorClaimedRevenue projectId creator
            (alreadyClaimed + claimable)
          let s2 := { s1 with creatorClaimedRevenue := newClaimed }
          .ok (rdUnlock s2, claimable)
      else .error .invalidInput
    else .error .invalidInput

/-! ## RevenueShareNFT (nfts/revenue_share_nft.rs) -/

/-- Storage of the `RevenueShareNFT` contract relevant to revenue
claiming, plus modelled balance and transfer trace.  ERC721 metadata
strings and approval maps are untouched by the claims and omitted. -/
structure NFTState where
  owners : Nat → Nat
  balances : Nat → Nat
  tokenRevenueShare : Nat → Nat
  tokenProject : Nat → Nat
  tokenFundingAmount : Nat → Nat
  projectTotalRevenue : Nat → Nat
  tokenClaimedRevenue : Nat → Nat
  tokenClaimableRevenue : Nat → Nat
  projectHolders : Nat → List Nat
  projectHolderCount : Nat → Nat
  nextTokenId : Nat
  transferRestrictions : Nat → Bool
  restrictionPeriod : Nat
  minClaimAmount : Nat
  claimFeeBps : Nat
  owner : Nat
  minters : Nat → Bool
  revenueDistributor : Nat
  locked : Bool
  balance : Nat
  transfers : List (Nat × Nat × Bool)

/-- Model of `RevenueShareNFT::nonreentrant_guard`. -/
def nftGuard (s : NFTState) : Except AfroErr NFTState :=
  if s.locked then .error .invalidInput else .ok { s with locked := true }

/-- Model of `RevenueShareNFT::unlock_guard`. -/
def nftUnlock (s : NFTState) : NFTState := { s with locked := false }

/-- Model of `call::transfer_eth` for the NFT contract. -/
def nftTransferEth (s : NFTState) (toAddr amount : Nat) : Except AfroErr NFTState :=
  if amount ≤ s.balance then
    .ok { s with balance := s.balance - amount
               , transfers := s.transfers ++ [(toAddr, amount, s.locked)] }
  else .error .transferFailed

/-- Model of `RevenueShareNFT::calculate_claimable_revenue`. -/
def calculateClaimableRevenue (s : NFTState) (tokenId : Nat) : Except AfroErr Nat :=
  if s.owners tokenId = 0 then .error .invalidInput
  else
    let projectId := s.tokenProject tokenId
    let revenueShare := s.tokenRevenueShare tokenId
    let totalProjectRevenue := s.projectTotalRevenue projectId
    let alreadyClaimed := s.tokenClaimedRevenue tokenId
    let totalEntitled := totalProjectRevenue * revenueShare / 10000
    if alreadyClaimed < totalEntitled then .ok (totalEntitled - alreadyClaimed)
    else .ok 0

/-- Line 207: `token_claimed_revenue` grows by the full claimable delta. -/
def recordClaim (s : NFTState) (tokenId claimable : Nat) : NFTState :=
  { s with tokenClaimedRevenue :=
            upd s.tokenClaimedRevenue tokenId
              (s.tokenClaimedRevenue tokenId + claimable) }

/-- Lines 210-212: transfer the net amount only when positive. -/
def nftOptionalTransfer (s : NFTState) (toAddr amount : Nat) :
    Except AfroErr NFTState :=
  if 0 < amount then nftTransferEth s toAddr amount else .ok s

/-- Line 215: reset the claimable cache. -/
def clearClaimableCache (s : NFTState) (tokenId : Nat) : NFTState :=
  { s with tokenClaimableRevenue := upd s.tokenClaimableRevenue tokenId 0 }

/-- Model of `RevenueShareNFT::claim_revenue`.  Returns the net amount paid out.
Note the source debits `token_claimed_revenue` by the full claimable
delta but transfers `claimable - fee` where
`fee = claimable * claim_fee_bps / 10000`. -/
def claimRevenue (s0 : NFTState) (caller tokenId : Nat) :
    Except AfroErr (NFTState × Nat) :=
  match nftGuard s0 with
  | .error e => .error e
  | .ok s =>
    let holder := s.owners tokenId
    if caller = holder then
      match calculateClaimableRevenue s tokenId with
      | .error e => .error e
      | .ok claimable =>
        if s.minClaimAmount ≤ claimable then
          let netAmount := claimable - claimable * s.claimFeeBps / 10000
          match nftOptionalTransfer (recordClaim s tokenId claimable) holder netAmount with
          | .error e => .error e
          | .ok s1 => .ok (nftUnlock (clearClaimableCache s1 tokenId), netAmount)
        else .error .invalidInput
    else .error .unauthorized

/-! ## OracleManager (revenue/oracle_manager.rs) -/

/-- Model of `OracleConfig` from revenue/oracle_manager.rs. -/
structure OracleConfig where
  oracleAddress : Nat
  isActive : Bool
  reliabilityScore : Nat
  lastUpdate : Nat
  dataSource : String
  updateFrequency : Nat
  deriving Repr, DecidableEq

/-- Zero-initialised `OracleConfig` (absent registry slot). -/
def OracleConfig.zero : OracleConfig :=
  { oracleAddress := 0, isActive := false, reliabilityScore := 0
  , lastUpdate := 0, dataSource := "", updateFrequency := 0 }

/-- Model of `RevenueData` from revenue/oracle_manager.rs: a committed consensus
report.  A report with `projectId = 0` is the zero value of an absent
slot (the source tests `project_id != 0` for existence). -/
structure RevenueData where
  projectId : Nat
  source : String
  amount : Nat
  timestamp : Nat
  oracleAddress : Nat
  verificationScore : Nat
  isDisputed : Bool
  deriving Repr, DecidableEq

/-- Zero-initialised `RevenueData`. -/
def RevenueData.zero : RevenueData :=
  { projectId := 0, source := "", amount := 0, timestamp := 0
  , oracleAddress := 0, verificationScore := 0, isDisputed := false }

/-- Storage of the `OracleManager` contract. -/
structure OMState where
  oracles : Nat → OracleConfig
  sourceOracles : String → List Nat
  oracleCount : Nat
  revenueReports : Nat → String → RevenueData
  oracleSubmissions : Nat → String → Nat → Nat
  minOraclesRequired : Nat
  consensusThreshold : Nat
  oracleAccuracy : Nat → Nat
  paused : Bool
  owner : Nat

/-- Ascending insertion into a sorted list (model of `Vec::sort` on the
collected `u64` amounts). -/
def sortedInsert (x : Nat) : List Nat → List Nat
  | [] => [x]
  | y :: ys => if x ≤ y then x :: y :: ys else y :: sortedInsert x ys

/-- Ascending sort, the meaning of `sorted.sort()`. -/
def sortAsc : List Nat → List Nat
  | [] => []
  | x :: xs => sortedInsert x (sortAsc xs)

/-- Model of `OracleManager::calculate_consensus`: sort, take the median (mean of
the two middle values for an even count), count submissions within
`median ± median / 10` (`saturating_sub` is Nat subtraction) and return
`(median, agreeing * 100 / n)`. -/
def calculateConsensus (amounts : List Nat) : Nat × Nat :=
  if amounts.isEmpty then (0, 0)
  else
    let sorted := sortAsc amounts
    let n := sorted.length
    let median :=
      if n % 2 = 0 then (sorted.getD (n / 2 - 1) 0 + sorted.getD (n / 2) 0) / 2
      else sorted.getD (n / 2) 0
    let tolerance := median / 10
    let agreeing :=
      (amounts.filter (fun a => decide (median - tolerance ≤ a) &&
        decide (a ≤ median + tolerance))).length
    (median, agreeing * 100 / amounts.length)

/-- Model of `OracleManager::update_oracle_accuracy`: ±5% tolerance around the
consensus value; an accurate oracle gains 1 (capped at 100), an
inaccurate one loses 2 (saturating). -/
def updateOracleAccuracy (s : OMState) (oracleList : List Nat) (amounts : List Nat)
    (consensus : Nat) : OMState :=
  let tolerance := consensus / 20
  let pairs := oracleList.zip amounts
  { s with oracleAccuracy :=
      pairs.foldl (fun acc p =>
        let isAccurate := consensus - tolerance ≤ p.2 ∧ p.2 ≤ consensus + tolerance
        let newScore :=
          if isAccurate then min (acc p.1 + 1) 100 else acc p.1 - 2
        upd acc p.1 newScore) s.oracleAccuracy }

/-- Model of `OracleManager::get_source_oracles`. -/
def getSourceOracles (s : OMState) (source : String) : List Nat :=
  s.sourceOracles source

/-- The non-zero submissions collected by `process_consensus`, in
source-oracle registration order: pairs (oracle, amount). -/
def collectSubmissions (s : OMState) (projectId : Nat) (source : String) :
    List (Nat × Nat) :=
  (getSourceOracles s source).filterMap (fun oracleAddr =>
    let amount := s.oracleSubmissions projectId source oracleAddr
    if 0 < amount then some (oracleAddr, amount) else none)

/-- Model of `OracleManager::process_consensus`.  When agreement meets the
threshold it overwrites `revenue_reports[(project, source)]` and updates
oracle accuracy; in no branch does it clear `oracle_submissions`. -/
def processConsensus (s : OMState) (projectId : Nat) (source : String) (now : Nat) :
    Except AfroErr OMState :=
  let collected := collectSubmissions s projectId source
  let amounts := collected.map Prod.snd
  let oracleList := collected.map Prod.fst
  if amounts.length < s.minOraclesRequired then .ok s
  else
    let result := calculateConsensus amounts
    let consensusAmount := result.1
    let agreementPercentage := result.2
    if s.consensusThreshold ≤ agreementPercentage then
      let revenueData : RevenueData :=
        { projectId := projectId, source := source, amount := consensusAmount
        , timestamp := now, oracleAddress := 0
        , verificationScore := agreementPercentage, isDisputed := false }
      let s := { s with revenueReports :=
                        updNS s.revenueReports projectId source revenueData }
      .ok (updateOracleAccuracy s oracleList amounts consensusAmount)
    else .ok s

/-- Model of `OracleManager::count_submissions` — a hard-coded placeholder `3` in
the source (it never inspects the map). -/
def countSubmissions (_s : OMState) (_projectId : Nat) (_source : String) : Nat := 3

/-- Model of `OracleManager::submit_revenue_data`: overwrite the sender's live
submission for the round, then run consensus when the (placeholder)
submission count reaches `min_oracles_required`. -/
def submitRevenueData (s : OMState) (caller projectId : Nat) (source : String)
    (amount _timestamp now : Nat) : Except AfroErr OMState :=
  if s.paused then .error .invalidInput
  else
    let oracleConfig := s.oracles caller
    if oracleConfig.oracleAddress = 0 then .error .invalidInput
    else if oracleConfig.isActive then
      if oracleConfig.dataSource = source then
        let newSubs := fun (p : Nat) =>
          if p = projectId then
            updS (s.oracleSubmissions p) source
              (upd (s.oracleSubmissions p source) caller amount)
          else s.oracleSubmissions p
        let s := { s with oracleSubmissions := newSubs }
        let submissionCount := countSubmissions s projectId source
        if s.minOraclesRequired ≤ submissionCount then
          processConsensus s projectId source now
        else .ok s
      else .error .invalidInput
    else .error .invalidInput

def pfBase : PFState :=
  { projectFunding := fun _ => FundingInfo.zero
  , backerContributions := fun _ _ => 0
  , projectBackers := fun _ => []
  , revenueNftContract := 0
  , fundingModels := fun _ => 0
  , projectMilestones := fun _ => []
  , milestoneReleases := fun _ _ => false
  , milestoneCompletion := fun _ _ => false
  , platformContract := 0
  , platformFeeBps := 300
  , minContribution := 1
  , refundPeriod := 1000
  , projectEscrow := fun _ => 0
  , platformTreasury := 0
  , owner := 7
  , authorizedCallers := fun _ => false
  , totalProjectsFunded := 0
  , totalAmountRaised := 0
  , totalBackers := 0
  , locked := false
  , balance := 0
  , transfers := [] }

def sFundInfo : FundingInfo :=
  { target := 100, raised := 60, deadline := 10, status := 0
  , creator := 5, backerCount := 1, fundingModel := 0 }

def sFund : PFState :=
  { pfBase with projectFunding := upd pfBase.projectFunding 1 sFundInfo }

def c1FundOut : PFState × Nat :=
  match fundProject sFund 9 1 40 5 with
  | .ok r => r
  | .error _ => (sFund, 0)

def sSuccInfo : FundingInfo :=
  { target := 100, raised := 100, deadline := 10, status := 1
  , creator := 5, backerCount := 1, fundingModel := 0 }

def sSucc : PFState :=
  { pfBase with
    projectFunding := upd pfBase.projectFunding 1 sSuccInfo
  , projectEscrow := upd pfBase.projectEscrow 1 100
  , balance := 200 }

def c1FinOut : PFState :=
  match finalizeSuccessfulProject sSucc 7 1 with
  | .ok r => r
  | .error _ => sSucc

def sFundB : PFState :=
  { pfBase with projectFunding := upd pfBase.projectFunding 1
                  { sFundInfo with raised := 10, deadline := 20 } }

def c10OutB : PFState × Nat :=
  match fundProject sFundB 8 1 40 7 with
  | .ok r => r
  | .error _ => (sFundB, 0)

def milC6 : Milestone :=
  { id := 0, fundingAmount := 40, deadline := 60
  , isCompleted := true, fundsReleased := false }

def sMil : PFState :=
  { pfBase with
    projectFunding :=
      upd (upd pfBase.projectFunding 1
            { target := 100, raised := 100, deadline := 50, status := 1
            , creator := 5, backerCount := 1, fundingModel := 2 }) 2
        { target := 1000, raised := 0, deadline := 100, status := 0
        , creator := 6, backerCount := 0, fundingModel := 0 }
  , fundingModels := upd pfBase.fundingModels 1 2
  , projectMilestones := upd pfBase.projectMilestones 1 [milC6]
  , milestoneCompletion := upd2 pfBase.milestoneCompletion 1 0 true
  , projectEscrow := upd pfBase.projectEscrow 1 100
  , balance := 100 }

def sC7 : PFState :=
  { pfBase with
    projectFunding := upd pfBase.projectFunding 1
      { target := 100, raised := 100, deadline := 50, status := 3
      , creator := 5, backerCount := 1, fundingModel := 2 }
  , fundingModels := upd pfBase.fundingModels 1 2
  , projectMilestones := upd pfBase.projectMilestones 1 [milC6]
  , milestoneCompletion := upd2 pfBase.milestoneCompletion 1 0 true
  , projectBackers := upd pfBase.projectBackers 1 [9]
  , backerContributions := upd2 pfBase.backerContributions 1 9 100
  , projectEscrow := upd pfBase.projectEscrow 1 100
  , balance := 100 }

/-- The refunds actually transferred by the refund loop, described
backer by backer: `refundAmountOf (contribution b) escrow raised`, for
every listed backer whose contribution (and whose refund) is positive;
`lk` is the guard flag recorded with each transfer. -/
def refundTrace (c : Nat → Nat) (E R : Nat) (lk : Bool) : List Nat → List (Nat × Nat × Bool)
  | [] => []
  | b :: rest =>
    (if 0 < c b ∧ 0 < refundAmountOf (c b) E R
     then [(b, refundAmountOf (c b) E R, lk)] else [])
    ++ refundTrace c E R lk rest

/-- Total value paid out by the refund loop. -/
def refundTotal (c : Nat → Nat) (E R : Nat) : List Nat → Nat
  | [] => 0
  | b :: rest => refundAmountOf (c b) E R + refundTotal c E R rest

/-- Whether a result is the `InsufficientFunds` error class. -/
def isInsufficientFundsError {α : Type} : Except AfroErr α → Bool
  | .error .insufficientFunds => true
  | _ => false

def sRefInfo : FundingInfo :=
  { target := 200, raised := 100, deadline := 10, status := 2
  , creator := 5, backerCount := 2, fundingModel := 0 }

def sRef : PFState :=
  { pfBase with
    projectFunding := upd pfBase.projectFunding 1 sRefInfo
  , projectBackers := upd pfBase.projectBackers 1 [4, 5]
  , backerContributions := upd2 (upd2 pfBase.backerContributions 1 4 30) 1 5 70
  , projectEscrow := upd pfBase.projectEscrow 1 100
  , balance := 100 }

def c2Out : PFState :=
  match processRefunds sRef 1 20 with
  | .ok r => r
  | .error _ => sRef

def rdBase : RDState :=
  { projectRevenue := fun _ => RevenueInfo.zero
  , projectRevenueSources := fun _ _ => 0
  , revenueSources := fun nm =>
      { sourceName := nm, oracleAddress := 0, isActive := false
      , verificationRequired := false, lastUpdateTimestamp := 0
      , totalRevenueReported := 0 }
  , oracleAddresses := fun _ => 0
  , supportedSources := []
  , totalDistributed := fun _ => 0
  , distributionHistory := fun _ => []
  , creatorClaimedRevenue := fun _ _ => 0
  , platformContract := 0
  , nftContract := 0
  , platformFeeBps := 300
  , minDistributionAmount := 1
  , distributionFrequency := 10
  , creatorShareDefault := 3000
  , owner := 7
  , authorizedReporters := fun _ => false
  , revenueManagers := fun _ => false
  , totalRevenueProcessed := 0
  , paused := false
  , locked := false
  , balance := 0
  , transfers := []
  , events := [] }

def sDistInfo : RevenueInfo :=
  { totalRevenue := 2000, lastDistributionTimestamp := 0, revenueSources := []
  , oracleVerified := false, creatorShareBps := 3000, communityShareBps := 6700 }

def sDist : RDState :=
  { rdBase with projectRevenue := upd rdBase.projectRevenue 1 sDistInfo
              , totalDistributed := upd rdBase.totalDistributed 1 1000 }

def c5Out : RDState × Nat :=
  match distributeRevenue sDist 1 20 with
  | .ok r => r
  | .error _ => (sDist, 0)

def spotify : String := "spotify"

def sC3 : RDState :=
  { rdBase with
    supportedSources := [spotify]
  , revenueSources := updS rdBase.revenueSources spotify
      { sourceName := spotify, oracleAddress := 1, isActive := true
      , verificationRequired := true, lastUpdateTimestamp := 0
      , totalRevenueReported := 100 }
  , oracleAddresses := updS rdBase.oracleAddresses spotify 1
  , authorizedReporters := fun a => a == 7 }

def omEmpty : OMState :=
  { oracles := fun _ => OracleConfig.zero
  , sourceOracles := fun _ => []
  , oracleCount := 0
  , revenueReports := fun _ _ => RevenueData.zero
  , oracleSubmissions := fun _ _ _ => 0
  , minOraclesRequired := 3
  , consensusThreshold := 70
  , oracleAccuracy := fun _ => 0
  , paused := false
  , owner := 7 }

def c3Out : RDState × Bool :=
  match addRevenueSource sC3 7 1 spotify 150 5 with
  | .ok r => r
  | .error _ => (sC3, false)

def nftBase : NFTState :=
  { owners := fun _ => 0
  , balances := fun _ => 0
  , tokenRevenueShare := fun _ => 0
  , tokenProject := fun _ => 0
  , tokenFundingAmount := fun _ => 0
  , projectTotalRevenue := fun _ => 0
  , tokenClaimedRevenue := fun _ => 0
  , tokenClaimableRevenue := fun _ => 0
  , projectHolders := fun _ => []
  , projectHolderCount := fun _ => 0
  , nextTokenId := 1
  , transferRestrictions := fun _ => false
  , restrictionPeriod := 2592000
  , minClaimAmount := 1000000000000000
  , claimFeeBps := 100
  , owner := 7
  , minters := fun _ => false
  , revenueDistributor := 0
  , locked := false
  , balance := 0
  , transfers := [] }

def sC4 : NFTState :=
  { nftBase with
    owners := upd nftBase.owners 1 9
  , tokenProject := upd nftBase.tokenProject 1 1
  , tokenRevenueShare := upd nftBase.tokenRevenueShare 1 10000
  , projectTotalRevenue := upd nftBase.projectTotalRevenue 1 10000000000000000
  , balance := 10000000000000000 }

def subAmounts : Nat → Nat := fun o =>
  if o = 11 then 100 else if o = 12 then 102 else if o = 13 then 98
  else if o = 14 then 150 else 0

def omC8 : OMState :=
  { omEmpty with
    sourceOracles := updS omEmpty.sourceOracles spotify [11, 12, 13, 14]
  , oracleSubmissions := fun p srcName o =>
      if p = 1 then (if srcName = spotify then subAmounts o else 0) else 0 }


/-! ## Verification -/

@[simp] theorem upd_same {α : Type} (f : Nat → α) (k : Nat) (v : α) :
    upd f k v k = v := by simp [upd]

theorem upd_ne {α : Type} (f : Nat → α) (k : Nat) (v : α) (x : Nat) (h : x ≠ k) :
    upd f k v x = f x := by simp [upd, h]

@[simp] theorem upd2_same {α : Type} (f : Nat → Nat → α) (k₁ k₂ : Nat) (v : α) :
    upd2 f k₁ k₂ v k₁ k₂ = v := by simp [upd2, upd]

theorem upd2_ne₁ {α : Type} (f : Nat → Nat → α) (k₁ k₂ : Nat) (v : α) (x y : Nat)
    (h : x ≠ k₁) : upd2 f k₁ k₂ v x y = f x y := by simp [upd2, h]

theorem upd2_ne₂ {α : Type} (f : Nat → Nat → α) (k₁ k₂ : Nat) (v : α) (x y : Nat)
    (h : y ≠ k₂) : upd2 f k₁ k₂ v x y = f x y := by
  by_cases hx : x = k₁ <;> simp [upd2, upd, hx, h]

theorem mintRevenueNft_ok (s : PFState) (pid amt tok : Nat)
    (h : mintRevenueNft s pid amt = .ok tok) :
    tok = (pid * 10000 + amt) % 2 ^ 256 := by
  unfold mintRevenueNft at h
  cases hc : calculateRevenueShare s pid amt with
  | error e => rw [hc] at h; simp [Except.map] at h
  | ok v => rw [hc] at h; simp [Except.map] at h; exact h.symm

theorem nonreentrantGuard_ok (s u : PFState)
    (h : nonreentrantGuard s = .ok u) :
    s.locked = false ∧ u = { s with locked := true } := by
  unfold nonreentrantGuard at h
  split at h
  · exact Except.noConfusion h
  · exact ⟨by simp_all, by injection h; simp_all⟩

theorem fundProject_ok_char (s0 : PFState) (caller projectId value now : Nat)
    (s' : PFState) (tok : Nat)
    (h : fundProject s0 caller projectId value now = .ok (s', tok)) :
    s0.locked = false ∧
    s0.minContribution ≤ value ∧
    0 < (s0.projectFunding projectId).target ∧
    (s0.projectFunding projectId).status = 0 ∧
    now ≤ (s0.projectFunding projectId).deadline ∧
    s' = unlockGuard (fundWrites { creditValue s0 value with locked := true }
          caller projectId value) ∧
    tok = (projectId * 10000 + value) % 2 ^ 256 := by
  unfold fundProject at h
  split at h
  · exact Except.noConfusion h
  case h_2 s1 hg =>
    obtain ⟨hl, hu⟩ := nonreentrantGuard_ok _ _ hg
    subst hu
    split at h
    case isFalse => exact Except.noConfusion h
    split at h
    case isFalse => exact Except.noConfusion h
    split at h
    case isFalse => exact Except.noConfusion h
    split at h
    case isFalse => exact Except.noConfusion h
    simp only [] at h
    split at h
    case h_1 => exact Except.noConfusion h
    case h_2 tokid heq =>
      injection h with hpair
      injection hpair with h1 h2
      subst h1; subst h2
      simp_all [creditValue, unlockGuard]
      exact mintRevenueNft_ok _ _ _ _ heq

theorem transferEth_ok_frame (s : PFState) (a b : Nat) (u : PFState)
    (h : transferEth s a b = .ok u) :
    u.projectFunding = s.projectFunding ∧ u.locked = s.locked ∧
    u.backerContributions = s.backerContributions ∧
    u.projectEscrow = s.projectEscrow ∧
    u.milestoneReleases = s.milestoneReleases := by
  unfold transferEth at h
  split at h
  · injection h with h1; subst h1; simp_all
  · exact Except.noConfusion h

theorem transferToCreator_ok_frame (s : PFState) (a b : Nat) (u : PFState)
    (h : transferToCreator s a b = .ok u) :
    u.projectFunding = s.projectFunding ∧ u.locked = s.locked ∧
    u.backerContributions = s.backerContributions ∧
    u.projectEscrow = s.projectEscrow ∧
    u.milestoneReleases = s.milestoneReleases := by
  unfold transferToCreator at h
  split at h
  · exact transferEth_ok_frame _ _ _ _ h
  · injection h with h1; subst h1; simp_all

theorem optionalTransfer_ok_frame (s : PFState) (a b : Nat) (u : PFState)
    (h : optionalTransfer s a b = .ok u) :
    u.projectFunding = s.projectFunding ∧ u.locked = s.locked ∧
    u.projectEscrow = s.projectEscrow := by
  unfold optionalTransfer at h
  split at h
  · have := transferEth_ok_frame _ _ _ _ h
    exact ⟨this.1, this.2.1, this.2.2.2.1⟩
  · injection h with h1; subst h1; exact ⟨rfl, rfl, rfl⟩

theorem setupProjectFunding_ok_char (s : PFState)
    (caller projectId target deadline creator model : Nat) (ms : List Milestone)
    (s' : PFState)
    (h : setupProjectFunding s caller projectId target deadline creator model ms
          = .ok s') :
    (s.projectFunding projectId).target = 0 ∧
    s' = setupWrites s projectId target deadline creator model ms := by
  unfold setupProjectFunding at h
  split at h
  · exact Except.noConfusion h
  · split at h
    · exact ⟨by assumption, by injection h with h1; exact h1.symm⟩
    · exact Except.noConfusion h

theorem releaseMilestoneFunds_ok_frame (s : PFState) (caller projectId milestoneId : Nat)
    (s' : PFState) (h : releaseMilestoneFunds s caller projectId milestoneId = .ok s') :
    s'.projectFunding = s.projectFunding := by
  unfold releaseMilestoneFunds at h
  simp only [] at h
  split at h
  · exact Except.noConfusion h
  · split at h
    case isFalse => exact Except.noConfusion h
    split at h
    case isFalse => exact Except.noConfusion h
    split at h
    case isFalse => exact Except.noConfusion h
    split at h
    case isTrue => exact Except.noConfusion h
    split at h
    case isFalse => exact Except.noConfusion h
    split at h
    case h_2 => injection h with h1; subst h1; rfl
    case h_1 m hm =>
      split at h
      case h_1 => exact Except.noConfusion h
      case h_2 s1 ht =>
        injection h with h1; subst h1
        simpa using (transferToCreator_ok_frame _ _ _ _ ht).1

theorem finalizeSuccessfulProject_ok_frame (s : PFState) (caller projectId : Nat)
    (s' : PFState) (h : finalizeSuccessfulProject s caller projectId = .ok s') :
    s'.projectFunding = s.projectFunding := by
  unfold finalizeSuccessfulProject at h
  simp only [] at h
  split at h
  · exact Except.noConfusion h
  · split at h
    case isFalse => exact Except.noConfusion h
    split at h
    case isFalse => exact Except.noConfusion h
    split at h
    case h_1 => injection h with h1; subst h1; rfl
    case h_2 =>
      split at h
      case h_1 => exact Except.noConfusion h
      case h_2 s1 ht =>
        injection h with h1; subst h1
        simpa using (transferToCreator_ok_frame _ _ _ _ ht).1

theorem processRefundsLoop_ok_frame (pid E R : Nat) (l : List Nat) (s s1 : PFState)
    (h : processRefundsLoop pid E R l s = .ok s1) :
    s1.projectFunding = s.projectFunding ∧ s1.locked = s.locked := by
  induction l generalizing s with
  | nil =>
    unfold processRefundsLoop at h
    injection h with h1; subst h1; exact ⟨rfl, rfl⟩
  | cons b rest ih =>
    unfold processRefundsLoop at h
    simp only [] at h
    split at h
    · split at h
      case h_1 => exact Except.noConfusion h
      case h_2 s2 htr =>
        have hf := optionalTransfer_ok_frame _ _ _ _ htr
        have hrest := ih _ h
        exact ⟨hrest.1.trans hf.1, hrest.2.trans hf.2.1⟩
    · exact ih _ h

theorem processRefunds_ok_char (s0 : PFState) (projectId now : Nat) (s' : PFState)
    (h : processRefunds s0 projectId now = .ok s') :
    s0.locked = false ∧
    0 < (s0.projectFunding projectId).target ∧
    refundEligible (getFundingModel s0 projectId) (s0.projectFunding projectId) now ∧
    now ≤ (s0.projectFunding projectId).deadline + s0.refundPeriod ∧
    ∃ s1, processRefundsLoop projectId (s0.projectEscrow projectId)
            (s0.projectFunding projectId).raised (s0.projectBackers projectId)
            { s0 with locked := true } = .ok s1 ∧
          s' = refundsFinish s1 projectId (s0.projectFunding projectId) := by
  unfold processRefunds at h
  split at h
  · exact Except.noConfusion h
  case h_2 s1 hg =>
    obtain ⟨hl, hu⟩ := nonreentrantGuard_ok _ _ hg
    subst hu
    clear hg
    simp only [] at h
    split at h
    case isFalse => exact Except.noConfusion h
    split at h
    case isFalse => exact Except.noConfusion h
    split at h
    case isFalse => exact Except.noConfusion h
    split at h
    case h_1 => exact Except.noConfusion h
    case h_2 s2 hloop =>
      injection h with h1
      refine ⟨hl, by assumption, by assumption, by assumption, s2, hloop, h1.symm⟩

theorem emergencyWithdraw_ok_frame (s : PFState) (caller projectId : Nat) (s' : PFState)
    (h : emergencyWithdraw s caller projectId = .ok s') :
    s'.projectFunding = s.projectFunding := by
  unfold emergencyWithdraw at h
  split at h
  · exact Except.noConfusion h
  · simp only [] at h
    split at h
    · split at h
      case h_1 => exact Except.noConfusion h
      case h_2 s1 ht =>
        injection h with h1; subst h1
        simpa using (transferEth_ok_frame _ _ _ _ ht).1
    · injection h with h1; subst h1; rfl

theorem addAuthorizedCaller_ok_frame (s : PFState) (caller newCaller : Nat) (s' : PFState)
    (h : addAuthorizedCaller s caller newCaller = .ok s') :
    s'.projectFunding = s.projectFunding := by
  unfold addAuthorizedCaller at h
  split at h
  · exact Except.noConfusion h
  · injection h with h1; subst h1; rfl

theorem setPlatformFee_ok_frame (s : PFState) (caller newFeeBps : Nat) (s' : PFState)
    (h : setPlatformFee s caller newFeeBps = .ok s') :
    s'.projectFunding = s.projectFunding := by
  unfold setPlatformFee at h
  split at h
  · exact Except.noConfusion h
  · injection h with h1; subst h1; rfl

theorem initFunding_ok_frame (s : PFState) (caller pc nft feeBps : Nat) (s' : PFState)
    (h : initFunding s caller pc nft feeBps = .ok s') :
    s'.projectFunding = s.projectFunding := by
  unfold initFunding at h
  split at h
  · injection h with h1; subst h1; rfl
  · exact Except.noConfusion h

theorem fundProject_ok_back (s0 : PFState) (caller projectId value now : Nat)
    (hl : s0.locked = false)
    (hmin : s0.minContribution ≤ value)
    (ht : 0 < (s0.projectFunding projectId).target)
    (hs : (s0.projectFunding projectId).status = 0)
    (hd : now ≤ (s0.projectFunding projectId).deadline) :
    fundProject s0 caller projectId value now
      = .ok (unlockGuard (fundWrites { creditValue s0 value with locked := true }
               caller projectId value),
             (projectId * 10000 + value) % 2 ^ 256) := by
  unfold fundProject
  have hg : nonreentrantGuard (creditValue s0 value)
      = .ok { creditValue s0 value with locked := true } := by
    unfold nonreentrantGuard creditValue
    simp [hl]
  rw [hg]
  simp only []
  rw [if_pos (show ({ creditValue s0 value with locked := true } : PFState).minContribution ≤ value from hmin)]
  rw [if_pos (show 0 < (({ creditValue s0 value with locked := true } : PFState).projectFunding projectId).target from ht)]
  rw [if_pos (show (({ creditValue s0 value with locked := true } : PFState).projectFunding projectId).status = 0 from hs)]
  rw [if_pos (show now ≤ (({ creditValue s0 value with locked := true } : PFState).projectFunding projectId).deadline from hd)]
  have htarget1 : 0 < ((fundWrites { creditValue s0 value with locked := true }
      caller projectId value).projectFunding projectId).target := by
    unfold fundWrites fundUpdatedInfo
    simp only [upd_same]
    split <;> split <;> simpa [creditValue] using ht
  have hmint : mintRevenueNft (fundWrites { creditValue s0 value with locked := true }
      caller projectId value) projectId value
      = .ok ((projectId * 10000 + value) % 2 ^ 256) := by
    unfold mintRevenueNft calculateRevenueShare
    simp only []
    rw [if_pos htarget1]
    split <;> simp [Except.map]
  rw [hmint]

theorem fundUpdatedInfo_status_iff (s : PFState) (c pid v : Nat)
    (h0 : (s.projectFunding pid).status = 0) :
    ((fundUpdatedInfo s c pid v).status = 1 ↔
     (fundUpdatedInfo s c pid v).target ≤ (fundUpdatedInfo s c pid v).raised) := by
  unfold fundUpdatedInfo
  simp only []
  split <;> split <;> simp_all

theorem fund_status_model_indep (s0 : PFState) (g : Nat → Nat)
    (caller projectId value now : Nat) :
    ((fundProject { s0 with fundingModels := g } caller projectId value now).toOption.map
        (fun r => ((r.1.projectFunding projectId).status, r.2)))
    = (fundProject s0 caller projectId value now).toOption.map
        (fun r => ((r.1.projectFunding projectId).status, r.2)) := by
  cases hA : fundProject { s0 with fundingModels := g } caller projectId value now with
  | ok r =>
    obtain ⟨sA, tokA⟩ := r
    obtain ⟨hl, hmin, ht, hs, hd, hsA, htokA⟩ :=
      fundProject_ok_char _ _ _ _ _ _ _ hA
    have hB := fundProject_ok_back s0 caller projectId value now hl hmin ht hs hd
    rw [hB]
    subst hsA; subst htokA
    rfl
  | error e =>
    cases hB : fundProject s0 caller projectId value now with
    | error e2 => rfl
    | ok r =>
      obtain ⟨sB, tokB⟩ := r
      obtain ⟨hl, hmin, ht, hs, hd, hsB, htokB⟩ :=
        fundProject_ok_char _ _ _ _ _ _ _ hB
      have hA2 := fundProject_ok_back { s0 with fundingModels := g }
        caller projectId value now hl hmin ht hs hd
      rw [hA] at hA2
      exact Except.noConfusion hA2

theorem pf_status_preserved (s s' : PFState) (p : Nat) (hstep : PFStep s s')
    (h1 : (s.projectFunding p).status = 1)
    (ht : 0 < (s.projectFunding p).target)
    (hr : (s.projectFunding p).target ≤ (s.projectFunding p).raised) :
    (s'.projectFunding p).status = 1 := by
  cases hstep with
  | init caller pc nft feeBps s2 h =>
    rw [initFunding_ok_frame _ _ _ _ _ _ h]; exact h1
  | release caller pid mid s2 h =>
    rw [releaseMilestoneFunds_ok_frame _ _ _ _ _ h]; exact h1
  | finalize caller pid s2 h =>
    rw [finalizeSuccessfulProject_ok_frame _ _ _ _ h]; exact h1
  | addAuth caller nc s2 h =>
    rw [addAuthorizedCaller_ok_frame _ _ _ _ h]; exact h1
  | setFee caller fee s2 h =>
    rw [setPlatformFee_ok_frame _ _ _ _ h]; exact h1
  | emergency caller pid s2 h =>
    rw [emergencyWithdraw_ok_frame _ _ _ _ h]; exact h1
  | fund caller pid value now s2 tok h =>
    obtain ⟨hl, hmin, htg, hs0, hd, hs', htok⟩ := fundProject_ok_char _ _ _ _ _ _ _ h
    subst hs'
    by_cases hp : p = pid
    · subst hp; rw [h1] at hs0; exact absurd hs0 (by simp)
    · show ((fundWrites { creditValue s value with locked := true }
          caller pid value).projectFunding p).status = 1
      unfold fundWrites
      simp only []
      rw [upd_ne _ _ _ _ hp]
      exact h1
  | setup caller pid target deadline creator model ms s2 h =>
    obtain ⟨h0, hs'⟩ := setupProjectFunding_ok_char _ _ _ _ _ _ _ _ _ h
    subst hs'
    by_cases hp : p = pid
    · subst hp; rw [h0] at ht; exact absurd ht (by simp)
    · show ((setupWrites s pid target deadline creator model ms).projectFunding p).status = 1
      unfold setupWrites
      simp only []
      rw [upd_ne _ _ _ _ hp]
      exact h1
  | refunds pid now s2 h =>
    obtain ⟨hl, htg, helig, hwin, s1, hloop, hs'⟩ := processRefunds_ok_char _ _ _ _ h
    subst hs'
    by_cases hp : p = pid
    · subst hp
      exfalso
      revert helig
      cases hm : getFundingModel s p <;> unfold refundEligible <;> simp <;> omega
    · have hframe := processRefundsLoop_ok_frame _ _ _ _ _ _ hloop
      show ((refundsFinish s1 pid (s.projectFunding pid)).projectFunding p).status = 1
      unfold refundsFinish unlockGuard
      simp only []
      rw [upd_ne _ _ _ _ hp, hframe.1]
      exact h1

/-- C1: a successful `fund_project` call sets the record status to 1
(Successful) iff the updated raised amount has reached the target; the
resulting status (and returned token) are unchanged when the project's
funding-model entry is replaced arbitrarily, so the rule treats
AllOrNothing, Flexible and MilestoneBased identically; and no contract
operation moves a record whose status is Successful (with the reachable
facts target > 0 and raised ≥ target) to any other status. -/
theorem c1_status_rule :
    (∀ s caller projectId value now s' tok,
        fundProject s caller projectId value now = .ok (s', tok) →
        (((s'.projectFunding projectId).status = 1) ↔
         ((s'.projectFunding projectId).target ≤ (s'.projectFunding projectId).raised)))
    ∧ (∀ s g caller projectId value now,
        ((fundProject { s with fundingModels := g } caller projectId value now).toOption.map
            (fun r => ((r.1.projectFunding projectId).status, r.2)))
        = (fundProject s caller projectId value now).toOption.map
            (fun r => ((r.1.projectFunding projectId).status, r.2)))
    ∧ (∀ s s' p, PFStep s s' →
        (s.projectFunding p).status = 1 →
        0 < (s.projectFunding p).target →
        (s.projectFunding p).target ≤ (s.projectFunding p).raised →
        (s'.projectFunding p).status = 1) := by
  refine ⟨?_, fund_status_model_indep, pf_status_preserved⟩
  intro s caller projectId value now s' tok h
  obtain ⟨hl, hmin, ht, hs0, hd, hs', htok⟩ := fundProject_ok_char _ _ _ _ _ _ _ h
  subst hs'
  have hproj : ((unlockGuard (fundWrites { creditValue s value with locked := true }
        caller projectId value)).projectFunding projectId)
      = fundUpdatedInfo { creditValue s value with locked := true } caller projectId value := by
    unfold unlockGuard fundWrites
    simp only []
    rw [upd_same]
  rw [hproj]
  exact fundUpdatedInfo_status_iff _ _ _ _ hs0

theorem c1_status_rule_witness :
    (((c1FundOut.1.projectFunding 1).status = 1) ↔
      ((c1FundOut.1.projectFunding 1).target ≤ (c1FundOut.1.projectFunding 1).raised))
    ∧ ((c1FinOut.projectFunding 1).status = 1) :=
  ⟨c1_status_rule.1 sFund 9 1 40 5 c1FundOut.1 c1FundOut.2 rfl,
   c1_status_rule.2.2 sSucc c1FinOut 1
     (PFStep.finalize sSucc 7 1 c1FinOut rfl)
     rfl (by decide) (by decide)⟩

/-- C10: the funding engine's internal NFT mint returns the mock token id
`project_id * 10000 + funding_amount` (as a `U256`), so any two
successful `fund_project` calls for the same project contributing the
same amount return the same token id: the ids are not unique per mint. -/
theorem c10_token_id_formula :
    (∀ s caller projectId value now s' tok,
        fundProject s caller projectId value now = .ok (s', tok) →
        tok = (projectId * 10000 + value) % 2 ^ 256)
    ∧ (∀ s₁ s₂ caller₁ caller₂ now₁ now₂ projectId value r₁ r₂,
        fundProject s₁ caller₁ projectId value now₁ = .ok r₁ →
        fundProject s₂ caller₂ projectId value now₂ = .ok r₂ →
        r₁.2 = r₂.2) := by
  constructor
  · intro s caller projectId value now s' tok h
    exact (fundProject_ok_char _ _ _ _ _ _ _ h).2.2.2.2.2.2
  · intro s₁ s₂ c₁ c₂ n₁ n₂ projectId value r₁ r₂ h₁ h₂
    obtain ⟨a₁, b₁⟩ := r₁
    obtain ⟨a₂, b₂⟩ := r₂
    have e₁ := (fundProject_ok_char _ _ _ _ _ _ _ h₁).2.2.2.2.2.2
    have e₂ := (fundProject_ok_char _ _ _ _ _ _ _ h₂).2.2.2.2.2.2
    simpa [e₁] using e₂.symm

theorem c10_token_id_formula_witness :
    c1FundOut.2 = (1 * 10000 + 40) % 2 ^ 256 ∧ c1FundOut.2 = c10OutB.2 :=
  ⟨c10_token_id_formula.1 sFund 9 1 40 5 c1FundOut.1 c1FundOut.2 rfl,
   c10_token_id_formula.2 sFund sFundB 9 8 5 7 1 40 c1FundOut c10OutB rfl rfl⟩

/-- C6 (violation witness in the code): `release_milestone_funds` and
`finalize_successful_project` perform their external transfers with the
reentrancy flag still `false` (neither touches the guard), and a nested
`fund_project` issued from the state in flight during such a transfer
passes the guard check and succeeds instead of failing. -/
theorem c6_release_and_finalize_unguarded :
    ((releaseMilestoneFunds sMil 7 1 0).toOption.map
        (fun s => (s.transfers, s.locked)) = some ([(5, 40, false)], false))
    ∧ ((finalizeSuccessfulProject sSucc 7 1).toOption.map
        (fun s => (s.transfers, s.locked)) = some ([(5, 97, false)], false))
    ∧ ((fundProject sMil 9 2 40 5).toOption.map (fun r => r.2) = some 20040) := by
  refine ⟨rfl, rfl, rfl⟩

/-- C7 (violation witness in the code): releasing a milestone of
`fundingAmount` 40 transfers the funds but leaves `project_escrow`
unchanged at 100 (only the real balance drops to 60), so the subsequent
`process_refunds` computes the lone backer's refund as
`100 × 100 / 100 = 100` against the stale escrow and aborts with a failed
transfer instead of refunding against the reduced escrow. -/
theorem c7_escrow_not_reduced_by_release :
    ((releaseMilestoneFunds sC7 7 1 0).toOption.map
        (fun s => (s.projectEscrow 1, s.balance)) = some (100, 60))
    ∧ ((releaseMilestoneFunds sC7 7 1 0).bind
        (fun s1 => processRefunds s1 1 55) = .error .transferFailed) := by
  refine ⟨rfl, rfl⟩

theorem refundTrace_congr (c₁ c₂ : Nat → Nat) (E R : Nat) (lk : Bool) (l : List Nat)
    (h : ∀ x ∈ l, c₁ x = c₂ x) :
    refundTrace c₁ E R lk l = refundTrace c₂ E R lk l := by
  induction l with
  | nil => rfl
  | cons b rest ih =>
    unfold refundTrace
    rw [h b (by simp), ih (fun x hx => h x (by simp [hx]))]

theorem refundTotal_congr (c₁ c₂ : Nat → Nat) (E R : Nat) (l : List Nat)
    (h : ∀ x ∈ l, c₁ x = c₂ x) :
    refundTotal c₁ E R l = refundTotal c₂ E R l := by
  induction l with
  | nil => rfl
  | cons b rest ih =>
    unfold refundTotal
    rw [h b (by simp), ih (fun x hx => h x (by simp [hx]))]

theorem transferEth_ok_balance (s : PFState) (a b : Nat) (u : PFState)
    (h : transferEth s a b = .ok u) :
    u.transfers = s.transfers ++ [(a, b, s.locked)] ∧
    s.balance = u.balance + b ∧ b ≤ s.balance := by
  unfold transferEth at h
  split at h
  case isTrue hle =>
    injection h with h1
    subst h1
    exact ⟨rfl, (Nat.sub_add_cancel hle).symm, hle⟩
  case isFalse => exact Except.noConfusion h

theorem optionalTransfer_ok_balance (s : PFState) (a b : Nat) (u : PFState)
    (h : optionalTransfer s a b = .ok u) :
    u.transfers = s.transfers ++ (if 0 < b then [(a, b, s.locked)] else []) ∧
    s.balance = u.balance + b ∧
    u.backerContributions = s.backerContributions ∧ u.locked = s.locked := by
  unfold optionalTransfer at h
  split at h
  case isTrue hb =>
    have hb1 := transferEth_ok_balance _ _ _ _ h
    have hf := transferEth_ok_frame _ _ _ _ h
    exact ⟨by simp [hb, hb1.1], hb1.2.1, hf.2.2.1, hf.2.1⟩
  case isFalse hb =>
    injection h with h1
    subst h1
    have hb0 : b = 0 := by omega
    exact ⟨by simp [hb], by simp [hb0], rfl, rfl⟩

theorem clearContribution_transfers (s : PFState) (p b : Nat) :
    (clearContribution s p b).transfers = s.transfers := rfl

theorem clearContribution_locked (s : PFState) (p b : Nat) :
    (clearContribution s p b).locked = s.locked := rfl

theorem clearContribution_balance (s : PFState) (p b : Nat) :
    (clearContribution s p b).balance = s.balance := rfl

theorem clearContribution_bc (s : PFState) (p b : Nat) :
    (clearContribution s p b).backerContributions = upd2 s.backerContributions p b 0 := rfl

theorem refundTrace_cons (c : Nat → Nat) (E R : Nat) (lk : Bool) (b : Nat)
    (rest : List Nat) :
    refundTrace c E R lk (b :: rest) =
      (if 0 < c b ∧ 0 < refundAmountOf (c b) E R
       then [(b, refundAmountOf (c b) E R, lk)] else [])
      ++ refundTrace c E R lk rest := rfl

theorem refundTotal_cons (c : Nat → Nat) (E R : Nat) (b : Nat) (rest : List Nat) :
    refundTotal c E R (b :: rest)
      = refundAmountOf (c b) E R + refundTotal c E R rest := rfl

theorem processRefundsLoop_ok_trace (projectId E R : Nat) (l : List Nat)
    (s s1 : PFState) (hN : l.Nodup)
    (h : processRefundsLoop projectId E R l s = .ok s1) :
    s1.transfers = s.transfers ++ refundTrace (s.backerContributions projectId) E R s.locked l ∧
    s.balance = s1.balance + refundTotal (s.backerContributions projectId) E R l := by
  induction l generalizing s with
  | nil =>
    unfold processRefundsLoop at h
    injection h with h1
    subst h1
    simp [refundTrace, refundTotal]
  | cons b rest ih =>
    unfold processRefundsLoop at h
    simp only [] at h
    split at h
    case isTrue hc =>
      split at h
      case h_1 => exact Except.noConfusion h
      case h_2 s2 htr =>
        obtain ⟨htx, hbal, hbc, hlk⟩ := optionalTransfer_ok_balance _ _ _ _ htr
        have hbmem : b ∉ rest := (List.nodup_cons.mp hN).1
        have ihz := ih _ hN.of_cons h
        simp only [clearContribution_transfers, clearContribution_locked,
          clearContribution_balance, clearContribution_bc] at ihz
        have hcongr : ∀ x ∈ rest,
            upd2 s2.backerContributions projectId b 0 projectId x
            = s.backerContributions projectId x := by
          intro x hx
          have hxb : x ≠ b := fun hxe => hbmem (hxe ▸ hx)
          rw [upd2_ne₂ _ _ _ _ _ _ hxb, hbc]
        rw [refundTrace_congr (upd2 s2.backerContributions projectId b 0 projectId)
            (s.backerContributions projectId) E R s2.locked rest hcongr,
          refundTotal_congr (upd2 s2.backerContributions projectId b 0 projectId)
            (s.backerContributions projectId) E R rest hcongr] at ihz
        rw [hlk, htx] at ihz
        constructor
        · rw [ihz.1, refundTrace_cons]
          by_cases hr : 0 < refundAmountOf (s.backerContributions projectId b) E R <;>
            simp [hc, hr, List.append_assoc]
        · have ihb := ihz.2
          rw [refundTotal_cons]
          omega
    case isFalse hc =>
      have hc0 : s.backerContributions projectId b = 0 := by omega
      have ihz := ih _ hN.of_cons h
      have hr0 : refundAmountOf (s.backerContributions projectId b) E R = 0 := by
        unfold refundAmountOf
        rw [hc0]
        split <;> simp
      constructor
      · rw [ihz.1, refundTrace_cons]
        simp [hc0]
      · rw [ihz.2, refundTotal_cons]
        rw [hr0]
        omega

theorem refundTotal_le_escrow (c : Nat → Nat) (E R : Nat) (l : List Nat)
    (hR : 0 < R) (hsum : (l.map c).sum ≤ R) :
    refundTotal c E R l ≤ E := by
  have key : ∀ l' : List Nat, refundTotal c E R l' ≤ (l'.map c).sum * E / R := by
    intro l'
    induction l' with
    | nil => simp [refundTotal]
    | cons b rest ih =>
      rw [refundTotal_cons]
      unfold refundAmountOf
      rw [if_pos hR]
      have h1 : c b * E / R + refundTotal c E R rest
          ≤ c b * E / R + (rest.map c).sum * E / R := by omega
      have h2 : c b * E / R + (rest.map c).sum * E / R
          ≤ (c b * E + (rest.map c).sum * E) / R :=
        Nat.add_div_le_add_div _ _ _
      have h3 : c b * E + (rest.map c).sum * E = ((b :: rest).map c).sum * E := by
        simp [Nat.add_mul]
      rw [h3] at h2
      omega
  have h4 := key l
  have h5 : (l.map c).sum * E / R ≤ R * E / R :=
    Nat.div_le_div_right (Nat.mul_le_mul_right _ hsum)
  have h6 : R * E / R = E := Nat.mul_div_cancel_left _ hR
  omega

theorem processRefundsLoop_never_insufficient (projectId E R : Nat) (l : List Nat)
    (s : PFState) :
    isInsufficientFundsError (processRefundsLoop projectId E R l s) = false := by
  induction l generalizing s with
  | nil => rfl
  | cons b rest ih =>
    unfold processRefundsLoop
    simp only []
    split
    · cases htr : optionalTransfer s b
        (refundAmountOf (s.backerContributions projectId b) E R) with
      | error e =>
        unfold optionalTransfer at htr
        split at htr
        · unfold transferEth at htr
          split at htr
          · exact Except.noConfusion htr
          · injection htr with h1
            subst h1
            rfl
        · exact Except.noConfusion htr
      | ok s2 => exact ih _
    · exact ih _

theorem processRefunds_never_insufficient (s : PFState) (projectId now : Nat) :
    isInsufficientFundsError (processRefunds s projectId now) = false := by
  unfold processRefunds
  cases hg : nonreentrantGuard s with
  | error e =>
    unfold nonreentrantGuard at hg
    split at hg
    · injection hg with h1
      subst h1
      rfl
    · exact Except.noConfusion hg
  | ok s1 =>
    simp only []
    split
    · split
      · split
        · cases hloop : processRefundsLoop projectId (s1.projectEscrow projectId)
              ((s1.projectFunding projectId).raised) (s1.projectBackers projectId) s1 with
          | error e =>
            have := processRefundsLoop_never_insufficient projectId
              (s1.projectEscrow projectId) ((s1.projectFunding projectId).raised)
              (s1.projectBackers projectId) s1
            rw [hloop] at this
            simpa using this
          | ok s2 => rfl
        · rfl
      · rfl
    · rfl

theorem refundsFinish_transfers (s1 : PFState) (p : Nat) (fi : FundingInfo) :
    (refundsFinish s1 p fi).transfers = s1.transfers := rfl

theorem refundsFinish_balance (s1 : PFState) (p : Nat) (fi : FundingInfo) :
    (refundsFinish s1 p fi).balance = s1.balance := rfl

/-- C2: in a successful refund run the transfer trace extends by exactly
one proportional refund `contribution * escrow / raised` per listed
backer with a positive contribution (guard raised during every
transfer); given the reachable-state facts that the listed contributions
are for distinct backers and sum to at most `raised > 0`, the total paid
out is at most the escrowed balance, and matches the drop in the
contract balance; and `process_refunds` never returns the
`InsufficientFunds` error class on any input. -/
theorem c2_proportional_refunds :
    (∀ s projectId now s',
        processRefunds s projectId now = .ok s' →
        (s.projectBackers projectId).Nodup →
        0 < (s.projectFunding projectId).raised →
        ((s.projectBackers projectId).map (s.backerContributions projectId)).sum
            ≤ (s.projectFunding projectId).raised →
        (s'.transfers = s.transfers ++
            refundTrace (s.backerContributions projectId) (s.projectEscrow projectId)
              (s.projectFunding projectId).raised true (s.projectBackers projectId))
        ∧ refundTotal (s.backerContributions projectId) (s.projectEscrow projectId)
              (s.projectFunding projectId).raised (s.projectBackers projectId)
            ≤ s.projectEscrow projectId
        ∧ s.balance = s'.balance +
            refundTotal (s.backerContributions projectId) (s.projectEscrow projectId)
              (s.projectFunding projectId).raised (s.projectBackers projectId))
    ∧ (∀ s projectId now,
        isInsufficientFundsError (processRefunds s projectId now) = false) := by
  constructor
  · intro s projectId now s' h hN hR hsum
    obtain ⟨hl, htg, helig, hwin, s1, hloop, hs'⟩ := processRefunds_ok_char _ _ _ _ h
    subst hs'
    have htr := processRefundsLoop_ok_trace projectId (s.projectEscrow projectId)
      (s.projectFunding projectId).raised (s.projectBackers projectId)
      { s with locked := true } s1 hN hloop
    refine ⟨?_, ?_, ?_⟩
    · rw [refundsFinish_transfers]
      exact htr.1
    · exact refundTotal_le_escrow _ _ _ _ hR hsum
    · rw [refundsFinish_balance]
      exact htr.2
  · exact processRefunds_never_insufficient

theorem c2_proportional_refunds_witness :
    (c2Out.transfers = sRef.transfers ++
        refundTrace (sRef.backerContributions 1) (sRef.projectEscrow 1)
          (sRef.projectFunding 1).raised true (sRef.projectBackers 1))
    ∧ refundTotal (sRef.backerContributions 1) (sRef.projectEscrow 1)
          (sRef.projectFunding 1).raised (sRef.projectBackers 1)
        ≤ sRef.projectEscrow 1
    ∧ sRef.balance = c2Out.balance + refundTotal (sRef.backerContributions 1)
          (sRef.projectEscrow 1) (sRef.projectFunding 1).raised (sRef.projectBackers 1) :=
  c2_proportional_refunds.1 sRef 1 20 c2Out rfl (by decide) (by decide) (by decide)

theorem rdGuard_ok (s u : RDState) (h : rdGuard s = .ok u) :
    s.locked = false ∧ u = { s with locked := true } := by
  unfold rdGuard at h
  split at h
  · exact Except.noConfusion h
  · exact ⟨by simp_all, by injection h; simp_all⟩

theorem distributeRevenue_ok_char (s0 : RDState) (projectId now : Nat)
    (s' : RDState) (ret : Nat)
    (h : distributeRevenue s0 projectId now = .ok (s', ret)) :
    s0.locked = false ∧ s0.paused = false ∧
    0 < (s0.projectRevenue projectId).totalRevenue ∧
    ret = (s0.projectRevenue projectId).totalRevenue - s0.totalDistributed projectId ∧
    s0.minDistributionAmount ≤ ret ∧
    (s0.projectRevenue projectId).lastDistributionTimestamp
        + s0.distributionFrequency ≤ now ∧
    s' = distributeWrites { s0 with locked := true } projectId now ret := by
  unfold distributeRevenue at h
  split at h
  · exact Except.noConfusion h
  case h_2 s1 hg =>
    obtain ⟨hl, hu⟩ := rdGuard_ok _ _ hg
    subst hu
    clear hg
    split at h
    case isTrue => exact Except.noConfusion h
    simp only [] at h
    split at h
    case isFalse => exact Except.noConfusion h
    split at h
    case isFalse => exact Except.noConfusion h
    split at h
    case isFalse => exact Except.noConfusion h
    injection h with hpair
    injection hpair with h1 h2
    subst h2
    exact ⟨hl, by simp_all, by assumption, rfl, by assumption, by assumption, h1.symm⟩

theorem distributeWrites_events (s : RDState) (projectId now a : Nat) :
    (distributeWrites s projectId now a).events = s.events ++
      [.revenueDistributed projectId a
        (distributionBreakdown a s.platformFeeBps
          (s.projectRevenue projectId).creatorShareBps).2.1
        (distributionBreakdown a s.platformFeeBps
          (s.projectRevenue projectId).creatorShareBps).2.2
        (distributionBreakdown a s.platformFeeBps
          (s.projectRevenue projectId).creatorShareBps).1] := rfl

/-- C5: `distribute_revenue` splits the available amount as
`platformFee = available*feeBps/10000`,
`creatorShare = available*creatorBps/10000`,
`communityShare = available - platformFee - creatorShare`; whenever the
configured basis points sum to at most 10000, the three parts sum back
to exactly the available amount (rounding dust lands in the community
share); every successful distribution logs exactly this breakdown; and
the spec's example 1000/300bps/3000bps gives 30/300/670. -/
theorem c5_distribution_split :
    (∀ available feeBps creatorBps,
        feeBps + creatorBps ≤ 10000 →
        (distributionBreakdown available feeBps creatorBps).1
            = available * feeBps / 10000
        ∧ (distributionBreakdown available feeBps creatorBps).2.1
            = available * creatorBps / 10000
        ∧ (distributionBreakdown available feeBps creatorBps).2.2
            = available - available * feeBps / 10000 - available * creatorBps / 10000
        ∧ (distributionBreakdown available feeBps creatorBps).1
            + (distributionBreakdown available feeBps creatorBps).2.1
            + (distributionBreakdown available feeBps creatorBps).2.2 = available)
    ∧ (∀ s projectId now s' ret,
        distributeRevenue s projectId now = .ok (s', ret) →
        s'.events = s.events ++
          [.revenueDistributed projectId ret
            (distributionBreakdown ret s.platformFeeBps
              (s.projectRevenue projectId).creatorShareBps).2.1
            (distributionBreakdown ret s.platformFeeBps
              (s.projectRevenue projectId).creatorShareBps).2.2
            (distributionBreakdown ret s.platformFeeBps
              (s.projectRevenue projectId).creatorShareBps).1])
    ∧ distributionBreakdown 1000 300 3000 = (30, 300, 670) := by
  refine ⟨?_, ?_, by decide⟩
  · intro a f c hfc
    have h1 : a * f / 10000 + a * c / 10000 ≤ (a * f + a * c) / 10000 :=
      Nat.add_div_le_add_div _ _ _
    have h2 : a * f + a * c = a * (f + c) := by ring
    have h3 : a * (f + c) / 10000 ≤ a * 10000 / 10000 :=
      Nat.div_le_div_right (Nat.mul_le_mul_left _ hfc)
    have h4 : a * 10000 / 10000 = a := Nat.mul_div_cancel _ (by omega)
    have hle : a * f / 10000 + a * c / 10000 ≤ a := by
      rw [h2] at h1
      omega
    refine ⟨rfl, rfl, rfl, ?_⟩
    show a * f / 10000 + a * c / 10000 + (a - a * f / 10000 - a * c / 10000) = a
    omega
  · intro s projectId now s' ret h
    obtain ⟨hl, hp, htr, hret, hmin, hfreq, hs'⟩ :=
      distributeRevenue_ok_char _ _ _ _ _ h
    subst hs'
    exact distributeWrites_events { s with locked := true } projectId now ret

theorem c5_distribution_split_witness :
    ((distributionBreakdown 1000 300 3000).1 = 1000 * 300 / 10000
      ∧ (distributionBreakdown 1000 300 3000).2.1 = 1000 * 3000 / 10000
      ∧ (distributionBreakdown 1000 300 3000).2.2
          = 1000 - 1000 * 300 / 10000 - 1000 * 3000 / 10000
      ∧ (distributionBreakdown 1000 300 3000).1
          + (distributionBreakdown 1000 300 3000).2.1
          + (distributionBreakdown 1000 300 3000).2.2 = 1000)
    ∧ c5Out.1.events = sDist.events ++
        [.revenueDistributed 1 c5Out.2
          (distributionBreakdown c5Out.2 sDist.platformFeeBps
            (sDist.projectRevenue 1).creatorShareBps).2.1
          (distributionBreakdown c5Out.2 sDist.platformFeeBps
            (sDist.projectRevenue 1).creatorShareBps).2.2
          (distributionBreakdown c5Out.2 sDist.platformFeeBps
            (sDist.projectRevenue 1).creatorShareBps).1] :=
  ⟨c5_distribution_split.1 1000 300 3000 (by decide),
   c5_distribution_split.2.1 sDist 1 20 c5Out.1 c5Out.2 rfl⟩

theorem rdRequireReporter_ok_back (s : RDState) (caller : Nat)
    (ha : s.authorizedReporters caller = true ∨ caller = s.owner) :
    rdRequireReporter s caller = .ok () := by
  unfold rdRequireReporter
  rcases ha with ha | ha <;> simp [ha]

theorem addRevenueSource_ok_back (s : RDState) (caller projectId : Nat)
    (source : String) (amount now : Nat)
    (hp : s.paused = false)
    (ha : s.authorizedReporters caller = true ∨ caller = s.owner)
    (h0 : 0 < amount)
    (hsup : isSupportedSource s source = true)
    (hact : (s.revenueSources source).isActive = true)
    (hver : (s.revenueSources source).verificationRequired = true)
    (horacle : ¬s.oracleAddresses source = 0)
    (hbound : amount ≤ (s.revenueSources source).totalRevenueReported * 2) :
    addRevenueSource s caller projectId source amount now
      = .ok (addRevenueWrites s projectId source amount now, true) := by
  unfold addRevenueSource
  rw [hp]
  rw [if_neg (by simp)]
  rw [rdRequireReporter_ok_back s caller ha]
  simp only []
  rw [if_pos h0, if_pos hsup, if_pos hact, if_pos hver]
  have hval : validateRevenueWithOracle s projectId source amount = .ok true := by
    unfold validateRevenueWithOracle
    rw [if_neg horacle]
    simp [hbound, h0]
  rw [hval]
  rfl

theorem addRevenueSource_ok_char (s : RDState) (caller projectId : Nat)
    (source : String) (amount now : Nat) (s' : RDState) (b : Bool)
    (h : addRevenueSource s caller projectId source amount now = .ok (s', b)) :
    s.paused = false ∧
    (s.authorizedReporters caller = true ∨ caller = s.owner) ∧
    0 < amount ∧ isSupportedSource s source = true ∧
    (s.revenueSources source).isActive = true ∧
    ((s.revenueSources source).verificationRequired = true →
        (s.oracleAddresses source = 0 → False) ∧
        amount ≤ (s.revenueSources source).totalRevenueReported * 2) ∧
    b = true ∧ s' = addRevenueWrites s projectId source amount now := by
  unfold addRevenueSource at h
  split at h
  case isTrue => exact Except.noConfusion h
  case isFalse hpf =>
    split at h
    case h_1 => exact Except.noConfusion h
    case h_2 u hrep =>
      have hrepOk : s.authorizedReporters caller = true ∨ caller = s.owner := by
        unfold rdRequireReporter at hrep
        split at hrep
        · simp_all
        · exact Except.noConfusion hrep
      by_cases hamt : 0 < amount
      case neg => rw [if_neg hamt] at h; exact Except.noConfusion h
      case pos =>
      rw [if_pos hamt] at h
      by_cases hsup : isSupportedSource s source = true
      case neg => rw [if_neg hsup] at h; exact Except.noConfusion h
      case pos =>
      rw [if_pos hsup] at h
      by_cases hact : (s.revenueSources source).isActive = true
      case neg => rw [if_neg hact] at h; exact Except.noConfusion h
      case pos =>
      rw [if_pos hact] at h
      simp only [] at h
      by_cases hver : (s.revenueSources source).verificationRequired = true
      · rw [if_pos hver] at h
        cases hv : validateRevenueWithOracle s projectId source amount with
        | error e =>
          rw [hv] at h
          exact Except.noConfusion h
        | ok verified =>
          rw [hv] at h
          simp only [] at h
          by_cases hb : verified = true
          · rw [if_pos hb] at h
            simp only [] at h
            injection h with hpair
            injection hpair with h1 h2
            subst hb
            have hbounds : (s.oracleAddresses source = 0 → False) ∧
                amount ≤ (s.revenueSources source).totalRevenueReported * 2 := by
              unfold validateRevenueWithOracle at hv
              split at hv
              case isTrue => exact Except.noConfusion hv
              case isFalse hor =>
                injection hv with hv1
                simp at hv1
                exact ⟨fun hz => hor hz, hv1.1⟩
            exact ⟨by simp_all, hrepOk, hamt, hsup, hact,
              fun _ => hbounds, h2.symm, h1.symm⟩
          · rw [if_neg hb] at h
            exact Except.noConfusion h
      · rw [if_neg hver] at h
        injection h with hpair
        injection hpair with h1 h2
        exact ⟨by simp_all, hrepOk, hamt, hsup, hact,
          fun hv2 => absurd hv2 hver, h2.symm, h1.symm⟩

theorem addRevenueWrites_totalRevenue (s : RDState) (projectId : Nat)
    (source : String) (amount now : Nat) :
    ((addRevenueWrites s projectId source amount now).projectRevenue projectId).totalRevenue
      = (s.projectRevenue projectId).totalRevenue + amount := by
  unfold addRevenueWrites
  simp only [upd_same]
  split <;> split <;> simp_all

/-- C3 counterexample: on a state whose "spotify" source has
`verification_required = true` and a historical reported total of 100,
the single authorized reporter's raw figure 150 is accepted and added to
`total_revenue`, while no oracle-manager state is consulted at all — in
particular one whose report map holds no committed ConsensusResult for
(project 1, "spotify"). -/
theorem c3_raw_figure_accepted_without_consensus :
    ((addRevenueSource sC3 7 1 spotify 150 5).toOption.map
        (fun r => (r.2, (r.1.projectRevenue 1).totalRevenue)) = some (true, 150))
    ∧ (sC3.revenueSources spotify).verificationRequired = true
    ∧ (omEmpty.revenueReports 1 spotify).projectId = 0 :=
  ⟨rfl, rfl, rfl⟩

/-- C3 (amended): when verification is required, `add_revenue_source`
accepts a report iff the amount is positive and at most twice the
source's historical `total_revenue_reported` — the "oracle validation"
is only this heuristic bound; no committed ConsensusResult is read (the
distributor state carries none).  Every accepted amount is added to the
project's `total_revenue`. -/
theorem c3_verification_is_heuristic_bound :
    (∀ s caller projectId source amount now,
        s.paused = false →
        (s.authorizedReporters caller = true ∨ caller = s.owner) →
        isSupportedSource s source = true →
        (s.revenueSources source).isActive = true →
        (s.revenueSources source).verificationRequired = true →
        (s.oracleAddresses source = 0 → False) →
        (((addRevenueSource s caller projectId source amount now).toOption.map Prod.snd
            = some true)
          ↔ (0 < amount ∧ amount ≤ (s.revenueSources source).totalRevenueReported * 2)))
    ∧ (∀ s caller projectId source amount now s' b,
        addRevenueSource s caller projectId source amount now = .ok (s', b) →
        ((s'.projectRevenue projectId).totalRevenue
          = (s.projectRevenue projectId).totalRevenue + amount)) := by
  constructor
  · intro s caller projectId source amount now hp ha hsup hact hver horacle
    constructor
    · intro hmap
      cases hres : addRevenueSource s caller projectId source amount now with
      | error e => rw [hres] at hmap; exact Option.noConfusion hmap
      | ok r =>
        obtain ⟨s', b⟩ := r
        obtain ⟨_, _, hamt, _, _, hbound, _, _⟩ :=
          addRevenueSource_ok_char _ _ _ _ _ _ _ _ hres
        exact ⟨hamt, (hbound hver).2⟩
    · intro ⟨hamt, hbound⟩
      rw [addRevenueSource_ok_back s caller projectId source amount now
        hp ha hamt hsup hact hver horacle hbound]
      rfl
  · intro s caller projectId source amount now s' b h
    obtain ⟨_, _, _, _, _, _, _, hs'⟩ := addRevenueSource_ok_char _ _ _ _ _ _ _ _ h
    subst hs'
    exact addRevenueWrites_totalRevenue s projectId source amount now

theorem c3_verification_is_heuristic_bound_witness :
    (((addRevenueSource sC3 7 1 spotify 150 5).toOption.map Prod.snd = some true)
      ↔ (0 < 150 ∧ 150 ≤ (sC3.revenueSources spotify).totalRevenueReported * 2))
    ∧ ((c3Out.1.projectRevenue 1).totalRevenue
        = (sC3.projectRevenue 1).totalRevenue + 150) :=
  ⟨c3_verification_is_heuristic_bound.1 sC3 7 1 spotify 150 5 rfl (by decide)
      (by decide) (by decide) (by decide) (by decide),
   c3_verification_is_heuristic_bound.2 sC3 7 1 spotify 150 5 c3Out.1 c3Out.2 rfl⟩

theorem nftGuard_ok (s u : NFTState) (h : nftGuard s = .ok u) :
    s.locked = false ∧ u = { s with locked := true } := by
  unfold nftGuard at h
  split at h
  · exact Except.noConfusion h
  · exact ⟨by simp_all, by injection h; simp_all⟩

theorem nftOptionalTransfer_ok_char (s : NFTState) (a b : Nat) (u : NFTState)
    (h : nftOptionalTransfer s a b = .ok u) :
    u.owners = s.owners ∧ u.tokenProject = s.tokenProject ∧
    u.tokenRevenueShare = s.tokenRevenueShare ∧
    u.projectTotalRevenue = s.projectTotalRevenue ∧
    u.tokenClaimedRevenue = s.tokenClaimedRevenue ∧
    u.transfers = s.transfers ++ (if 0 < b then [(a, b, s.locked)] else []) := by
  unfold nftOptionalTransfer at h
  split at h
  case isTrue hb =>
    unfold nftTransferEth at h
    split at h
    case isTrue hle =>
      injection h with h1
      subst h1
      exact ⟨rfl, rfl, rfl, rfl, rfl, by simp [hb]⟩
    case isFalse => exact Except.noConfusion h
  case isFalse hb =>
    injection h with h1
    subst h1
    exact ⟨rfl, rfl, rfl, rfl, rfl, by simp [hb]⟩

theorem calculateClaimableRevenue_ok (s : NFTState) (tokenId v : Nat)
    (h : calculateClaimableRevenue s tokenId = .ok v) :
    (s.owners tokenId = 0 → False) ∧
    v = s.projectTotalRevenue (s.tokenProject tokenId) * s.tokenRevenueShare tokenId / 10000
        - s.tokenClaimedRevenue tokenId := by
  unfold calculateClaimableRevenue at h
  split at h
  · exact Except.noConfusion h
  case isFalse hown =>
    simp only [] at h
    split at h
    case isTrue hlt =>
      injection h with h1
      exact ⟨fun hz => hown hz, h1.symm⟩
    case isFalse hge =>
      injection h with h1
      refine ⟨fun hz => hown hz, ?_⟩
      omega

theorem claimRevenue_ok_char (s0 : NFTState) (caller tokenId : Nat)
    (s' : NFTState) (net : Nat)
    (h : claimRevenue s0 caller tokenId = .ok (s', net)) :
    s0.locked = false ∧ caller = s0.owners tokenId ∧
    ∃ claimable s1,
      calculateClaimableRevenue s0 tokenId = .ok claimable ∧
      s0.minClaimAmount ≤ claimable ∧
      net = claimable - claimable * s0.claimFeeBps / 10000 ∧
      nftOptionalTransfer (recordClaim { s0 with locked := true } tokenId claimable)
        (s0.owners tokenId) net = .ok s1 ∧
      s' = nftUnlock (clearClaimableCache s1 tokenId) := by
  unfold claimRevenue at h
  split at h
  · exact Except.noConfusion h
  case h_2 sg hg =>
    obtain ⟨hl, hu⟩ := nftGuard_ok _ _ hg
    subst hu
    clear hg
    simp only [] at h
    split at h
    case isFalse => exact Except.noConfusion h
    case isTrue hcaller =>
      cases hc : calculateClaimableRevenue { s0 with locked := true } tokenId with
      | error e =>
        rw [hc] at h
        exact Except.noConfusion h
      | ok claimable =>
        rw [hc] at h
        simp only [] at h
        split at h
        case isFalse => exact Except.noConfusion h
        case isTrue hmin =>
          split at h
          case h_1 => exact Except.noConfusion h
          case h_2 s1 htr =>
            injection h with hpair
            injection hpair with h1 h2
            subst h2
            exact ⟨hl, hcaller, claimable, s1, hc, hmin, rfl, htr, h1.symm⟩

/-- C4 (amended): `claimableRevenue` equals
`floor(totalRevenue*shareBps/10000) - claimedRevenue` (truncated at 0)
and never exceeds the entitlement; a successful claim debits
`claimedRevenue` by the full delta but transfers only the delta minus
the claim fee `floor(delta*claimFeeBps/10000)`; and immediately after a
claim, with no new revenue, the claimable amount is 0. -/
theorem c4_claim_revenue_math :
    (∀ s tokenId v, calculateClaimableRevenue s tokenId = .ok v →
        v = s.projectTotalRevenue (s.tokenProject tokenId)
              * s.tokenRevenueShare tokenId / 10000
            - s.tokenClaimedRevenue tokenId
        ∧ v ≤ s.projectTotalRevenue (s.tokenProject tokenId)
              * s.tokenRevenueShare tokenId / 10000)
    ∧ (∀ s caller tokenId s' net,
        claimRevenue s caller tokenId = .ok (s', net) →
        ∃ claimable,
          calculateClaimableRevenue s tokenId = .ok claimable ∧
          s'.tokenClaimedRevenue tokenId = s.tokenClaimedRevenue tokenId + claimable ∧
          net = claimable - claimable * s.claimFeeBps / 10000 ∧
          s'.transfers = s.transfers ++
            (if 0 < net then [(s.owners tokenId, net, true)] else []) ∧
          calculateClaimableRevenue s' tokenId = .ok 0) := by
  constructor
  · intro s tokenId v h
    have hch := calculateClaimableRevenue_ok _ _ _ h
    exact ⟨hch.2, by omega⟩
  · intro s caller tokenId s' net h
    obtain ⟨hl, hcaller, claimable, s1, hc, hmin, hnet, htr, hs'⟩ :=
      claimRevenue_ok_char _ _ _ _ _ h
    obtain ⟨hown, hv⟩ := calculateClaimableRevenue_ok _ _ _ hc
    obtain ⟨ho, hp, hsh, hpr, hcl, htx⟩ := nftOptionalTransfer_ok_char _ _ _ _ htr
    subst hs'
    refine ⟨claimable, hc, ?_, hnet, ?_, ?_⟩
    · show s1.tokenClaimedRevenue tokenId = _
      rw [hcl]
      show upd ({ s with locked := true} : NFTState).tokenClaimedRevenue tokenId
        (({ s with locked := true} : NFTState).tokenClaimedRevenue tokenId + claimable)
        tokenId = _
      rw [upd_same]
    · show s1.transfers = _
      rw [htx]
      rfl
    · show calculateClaimableRevenue (nftUnlock (clearClaimableCache s1 tokenId))
        tokenId = .ok 0
      unfold calculateClaimableRevenue
      simp only []
      show (if s1.owners tokenId = 0 then Except.error AfroErr.invalidInput
        else if s1.tokenClaimedRevenue tokenId <
            s1.projectTotalRevenue (s1.tokenProject tokenId)
              * s1.tokenRevenueShare tokenId / 10000 then
          Except.ok (s1.projectTotalRevenue (s1.tokenProject tokenId)
              * s1.tokenRevenueShare tokenId / 10000 - s1.tokenClaimedRevenue tokenId)
        else Except.ok 0) = Except.ok 0
      rw [ho, hp, hsh, hpr, hcl]
      simp only [recordClaim, upd_same]
      rw [if_neg (fun hz => hown hz)]
      rw [if_neg (by omega)]

theorem c4_claim_revenue_math_witness :
    10000000000000000 =
        sC4.projectTotalRevenue (sC4.tokenProject 1) * sC4.tokenRevenueShare 1 / 10000
          - sC4.tokenClaimedRevenue 1
    ∧ 10000000000000000 ≤
        sC4.projectTotalRevenue (sC4.tokenProject 1) * sC4.tokenRevenueShare 1 / 10000 :=
  c4_claim_revenue_math.1 sC4 1 10000000000000000 rfl

/-- C4 counterexample: with the default 1% claim fee, the holder of a
10000-bps token over 10^16 of revenue has `claimedRevenue` debited by the
full 10^16 delta, but only 9.9·10^15 is transferred — the transfer is
not the full delta the claim asserts. -/
theorem c4_transfer_is_not_full_delta :
    ((claimRevenue sC4 9 1).toOption.map
        (fun r => (r.2, r.1.tokenClaimedRevenue 1,
                   (r.1.transfers.map (fun t => t.2.1)).sum))
      = some (9900000000000000, 10000000000000000, 9900000000000000))
    ∧ ((9900000000000000 == 10000000000000000) = false) :=
  ⟨rfl, rfl⟩

/-- C8: the consensus computation sorts the submitted amounts, takes the
median — the mean of the two middle values for an even count — and counts
as agreeing the submissions within the integer tolerance `median / 10`,
which over integer amounts coincides exactly with "within ±10% of the
median"; on submissions [100,102,98,150] it yields median 101 with 75%
agreement, and with minOracles 3 and threshold 70 the consensus round
commits a report of 101 at 75%. -/
theorem c8_consensus_median_example :
    calculateConsensus [100, 102, 98, 150] = (101, 75)
    ∧ (∀ m a : Nat,
        ((m - m / 10 ≤ a) ∧ (a ≤ m + m / 10)) ↔ (9 * m ≤ 10 * a ∧ 10 * a ≤ 11 * m))
    ∧ ((processConsensus omC8 1 spotify 99).toOption.map
        (fun s => ((s.revenueReports 1 spotify).amount,
                   (s.revenueReports 1 spotify).verificationScore,
                   (s.revenueReports 1 spotify).isDisputed)) = some (101, 75, false)) := by
  refine ⟨by decide, ?_, rfl⟩
  intro m a
  constructor <;> intro h <;> (constructor <;> omega)

/-- C9 (violation witness in the code): after the consensus above
commits the report of 101, the four oracle submissions for
(project 1, "spotify") are still present, and calling
`process_consensus` again consumes the same stale submissions and
re-commits (the report's timestamp moves to the new call's time). -/
theorem c9_submissions_survive_commit :
    ((processConsensus omC8 1 spotify 99).toOption.map
        (fun s => (s.oracleSubmissions 1 spotify 11, s.oracleSubmissions 1 spotify 12,
                   s.oracleSubmissions 1 spotify 13, s.oracleSubmissions 1 spotify 14,
                   (s.revenueReports 1 spotify).amount))
      = some (100, 102, 98, 150, 101))
    ∧ (((processConsensus omC8 1 spotify 99).bind
          (fun s1 => processConsensus s1 1 spotify 123)).toOption.map
        (fun s => ((s.revenueReports 1 spotify).amount,
                   (s.revenueReports 1 spotify).timestamp))
      = some (101, 123)) :=
  ⟨rfl, rfl⟩

end AfroCreate
